import Mathlib

/-!
Verification of the AutoCrate crate-geometry engine.

This file gives a shallow embedding, in Lean 4, of the core layout engine of
the repository: the plywood sheet packer (src/lib/plywood-splicing.ts), the
cleat layout calculator (src/lib/cleat-calculator.ts) and the NX generator
(src/lib/nx-generator.ts).  JavaScript numbers are modelled by the rational
numbers; Math.ceil, Math.floor, Math.round and the remainder operator on
positive operands are modelled by the corresponding exact operations on the
rationals.  JavaScript Array.prototype.sort (a stable sort) is modelled by a
stable insertion sort with the Boolean comparator derived from the source
comparator.  Optional object fields are modelled with Option.

The theorems at the end of the file settle the stated claims about the engine.
-/

/-! ## Generic helpers: JavaScript number operations -/

/-- Math.ceil on a rational, as an integer. -/
def jsCeil (q : ℚ) : ℤ := ⌈q⌉

/-- Math.floor on a rational, as an integer. -/
def jsFloor (q : ℚ) : ℤ := ⌊q⌋

/-- Math.round on a rational (round half toward positive infinity,
matching JavaScript). -/
def jsRound (q : ℚ) : ℤ := ⌊q + 1/2⌋

/-- The JavaScript remainder operator a % b for the positive operands used in
the source: a - b * floor (a / b). -/
def jsMod (a b : ℚ) : ℚ := a - b * (⌊a / b⌋ : ℤ)

/-! ## Generic helpers: a stable sort modelling Array.prototype.sort

JavaScript Array.prototype.sort with a consistent comparator produces the
unique stable sorted permutation, so any stable sorting algorithm models it
faithfully; we use insertion sort, which is structurally recursive. -/

/-- Insert an element into a list, before the first element b with le a b. -/
def jsInsert {α : Type} (le : α → α → Bool) (a : α) : List α → List α
| [] => [a]
| b :: l => if le a b then a :: b :: l else b :: jsInsert le a l

/-- Stable insertion sort with Boolean comparator le (le a b: a may precede b). -/
def jsSortBy {α : Type} (le : α → α → Bool) : List α → List α
| [] => []
| a :: l => jsInsert le a (jsSortBy le l)

theorem mem_jsInsert {α : Type} (le : α → α → Bool) (a x : α) (l : List α) :
    x ∈ jsInsert le a l ↔ x = a ∨ x ∈ l := by
  induction l with
  | nil => simp [jsInsert]
  | cons b t ih =>
      simp only [jsInsert]
      by_cases h : le a b
      · simp [h]
      · simp [h, ih]
        tauto

theorem mem_jsSortBy {α : Type} (le : α → α → Bool) (x : α) (l : List α) :
    x ∈ jsSortBy le l ↔ x ∈ l := by
  induction l with
  | nil => simp [jsSortBy]
  | cons a t ih => simp [jsSortBy, mem_jsInsert, ih]

theorem length_jsInsert {α : Type} (le : α → α → Bool) (a : α) (l : List α) :
    (jsInsert le a l).length = l.length + 1 := by
  induction l with
  | nil => simp [jsInsert]
  | cons b t ih =>
      simp only [jsInsert]
      by_cases h : le a b
      · simp [h]
      · simp [h, ih]

theorem length_jsSortBy {α : Type} (le : α → α → Bool) (l : List α) :
    (jsSortBy le l).length = l.length := by
  induction l with
  | nil => rfl
  | cons a t ih => simp [jsSortBy, length_jsInsert, ih]

theorem pairwise_jsInsert {α : Type} (le : α → α → Bool)
    (htot : ∀ a b, le a b = true ∨ le b a = true)
    (htrans : ∀ a b c, le a b = true → le b c = true → le a c = true)
    (a : α) (l : List α)
    (hl : l.Pairwise (fun x y => le x y = true)) :
    (jsInsert le a l).Pairwise (fun x y => le x y = true) := by
  induction l with
  | nil => simp [jsInsert]
  | cons b t ih =>
      rcases hl with _ | ⟨hb, ht⟩
      simp only [jsInsert]
      by_cases h : le a b = true
      · rw [if_pos h]
        refine List.Pairwise.cons ?_ (List.Pairwise.cons hb ht)
        intro y hy
        rcases List.mem_cons.mp hy with h2 | h2
        · rw [h2]; exact h
        · exact htrans a b y h (hb y h2)
      · rw [if_neg h]
        refine List.Pairwise.cons ?_ (ih ht)
        intro y hy
        rw [mem_jsInsert] at hy
        rcases hy with h2 | h2
        · rw [h2]; exact (htot a b).resolve_left h
        · exact hb y h2

theorem pairwise_jsSortBy {α : Type} (le : α → α → Bool)
    (htot : ∀ a b, le a b = true ∨ le b a = true)
    (htrans : ∀ a b c, le a b = true → le b c = true → le a c = true)
    (l : List α) :
    (jsSortBy le l).Pairwise (fun x y => le x y = true) := by
  induction l with
  | nil => simp [jsSortBy]
  | cons a t ih => exact pairwise_jsInsert le htot htrans a _ ih

/-! ## Generic helpers: JavaScript string operations -/

/-- String.prototype.includes, via the list-of-characters infix relation. -/
def jsIncludes (s sub : String) : Bool := decide (sub.toList <:+: s.toList)

/-- Lower-casing of one ASCII capital letter (the only characters the panel
names contain besides the underscore). -/
def charLower (c : Char) : Char :=
  if c = 'A' then 'a' else if c = 'B' then 'b' else if c = 'C' then 'c'
  else if c = 'D' then 'd' else if c = 'E' then 'e' else if c = 'F' then 'f'
  else if c = 'G' then 'g' else if c = 'H' then 'h' else if c = 'I' then 'i'
  else if c = 'J' then 'j' else if c = 'K' then 'k' else if c = 'L' then 'l'
  else if c = 'M' then 'm' else if c = 'N' then 'n' else if c = 'O' then 'o'
  else if c = 'P' then 'p' else if c = 'Q' then 'q' else if c = 'R' then 'r'
  else if c = 'S' then 's' else if c = 'T' then 't' else if c = 'U' then 'u'
  else if c = 'V' then 'v' else if c = 'W' then 'w' else if c = 'X' then 'x'
  else if c = 'Y' then 'y' else if c = 'Z' then 'z' else c

/-- String.prototype.toLowerCase for the ASCII strings used by the source. -/
def jsToLower (s : String) : String := String.mk (s.toList.map charLower)

/-! ## Data model of src/lib/plywood-splicing.ts -/

/-- Orientation label used by SplicePosition and Cleat. -/
inductive Orient
| vertical
| horizontal
deriving DecidableEq

/-- interface SplicePosition. -/
structure SplicePosition where
  x : ℚ
  y : ℚ
  co : Orient
deriving DecidableEq

/-- interface PlywoodSection.  The optional piece field of the source is not
populated by any code path used by the generator and is omitted. -/
structure PlywoodSection where
  id : String
  x : ℚ
  y : ℚ
  width : ℚ
  height : ℚ
  sheetX : ℚ
  sheetY : ℚ
  sheetId : ℕ
deriving DecidableEq

/-- interface PanelSpliceLayout. -/
structure PanelSpliceLayout where
  panelName : String
  panelWidth : ℚ
  panelHeight : ℚ
  sheets : List PlywoodSection
  splices : List SplicePosition
  sheetCount : ℕ
  isRotated : Bool
  rotatedSheetWidth : Option ℚ
  rotatedSheetHeight : Option ℚ
deriving DecidableEq

namespace PlywoodSplicer

def MAX_SHEET_WIDTH : ℚ := 48
def MAX_SHEET_HEIGHT : ℚ := 96
def SPLICE_WIDTH : ℚ := 0.125

/-- Effective sheet width: rotation swaps the sheet axes. -/
def sheetWidthOf (useRotated : Bool) : ℚ :=
  if useRotated then MAX_SHEET_HEIGHT else MAX_SHEET_WIDTH

/-- Effective sheet height: rotation swaps the sheet axes. -/
def sheetHeightOf (useRotated : Bool) : ℚ :=
  if useRotated then MAX_SHEET_WIDTH else MAX_SHEET_HEIGHT

/-- horizontalSections = Math.ceil (panelWidth / sheetWidth), as a loop bound. -/
def hSections (panelWidth sheetWidth : ℚ) : ℕ := (jsCeil (panelWidth / sheetWidth)).toNat

/-- verticalSections = Math.ceil (panelHeight / sheetHeight), as a loop bound. -/
def vSections (panelHeight sheetHeight : ℚ) : ℕ := (jsCeil (panelHeight / sheetHeight)).toNat

/-- The y coordinate assigned to the row vSection of the tiling loop: the
first row carries the partial remainder height when there is one, later rows
are stacked above it. -/
def sectionY (panelHeight sheetHeight : ℚ) (v : ℕ) : ℚ :=
  let remainderHeight := jsMod panelHeight sheetHeight
  if v = 0 ∧ 0 < remainderHeight then 0
  else remainderHeight +
    (if 0 < remainderHeight then ((v : ℚ) - 1) else (v : ℚ)) * sheetHeight

/-- The height assigned to the row vSection of the tiling loop. -/
def sectionHeight (panelHeight sheetHeight : ℚ) (v : ℕ) : ℚ :=
  let remainderHeight := jsMod panelHeight sheetHeight
  if v = 0 ∧ 0 < remainderHeight then remainderHeight
  else min sheetHeight (panelHeight - sectionY panelHeight sheetHeight v)

/-- The section pushed at loop indices (vSection, hSection); the running
sheetId counter of the source equals v * horizontalSections + h in the loop
order. -/
def sectionAt (panelName : String) (panelWidth panelHeight sheetWidth sheetHeight : ℚ)
    (H : ℕ) (v h : ℕ) : PlywoodSection :=
  { id := panelName ++ "_S" ++ toString v ++ "_" ++ toString h
    x := (h : ℚ) * sheetWidth
    y := sectionY panelHeight sheetHeight v
    width := min sheetWidth (panelWidth - (h : ℚ) * sheetWidth)
    height := sectionHeight panelHeight sheetHeight v
    sheetX := 0
    sheetY := 0
    sheetId := v * H + h }

/-- The splices pushed at loop indices (vSection, hSection): a vertical splice
for every column but the rightmost, and a horizontal splice under the guard of
the source (bottom partial row, or an inner row). -/
def splicesAt (_panelWidth panelHeight sheetWidth sheetHeight : ℚ)
    (H V : ℕ) (v h : ℕ) : List SplicePosition :=
  let remainderHeight := jsMod panelHeight sheetHeight
  let y := sectionY panelHeight sheetHeight v
  (if h + 1 < H then
    [{ x := ((h : ℚ) + 1) * sheetWidth - SPLICE_WIDTH, y := y, co := Orient.vertical }]
   else []) ++
  (if v = 0 ∧ 1 < V ∧ 0 < remainderHeight then
    [{ x := (h : ℚ) * sheetWidth, y := remainderHeight - SPLICE_WIDTH, co := Orient.horizontal }]
   else if 0 < v ∧ v < V - 1 then
    [{ x := (h : ℚ) * sheetWidth,
       y := y + sectionHeight panelHeight sheetHeight v - SPLICE_WIDTH,
       co := Orient.horizontal }]
   else [])

/-- PlywoodSplicer.calculateSpliceLayout. -/
def calculateSpliceLayout (panelWidth panelHeight : ℚ) (panelName : String)
    (useRotated : Bool) : PanelSpliceLayout :=
  let sheetWidth := sheetWidthOf useRotated
  let sheetHeight := sheetHeightOf useRotated
  let H := hSections panelWidth sheetWidth
  let V := vSections panelHeight sheetHeight
  { panelName := panelName
    panelWidth := panelWidth
    panelHeight := panelHeight
    sheets := (List.range V).flatMap
      (fun v => (List.range H).map
        (fun h => sectionAt panelName panelWidth panelHeight sheetWidth sheetHeight H v h))
    splices := (List.range V).flatMap
      (fun v => (List.range H).flatMap
        (fun h => splicesAt panelWidth panelHeight sheetWidth sheetHeight H V v h))
    sheetCount := V * H
    isRotated := useRotated
    rotatedSheetWidth := if useRotated then some sheetWidth else none
    rotatedSheetHeight := if useRotated then some sheetHeight else none }

/-- PlywoodSplicer.calculateOptimizedSpliceLayout. -/
def calculateOptimizedSpliceLayout (panelWidth panelHeight : ℚ) (panelName : String)
    (allowRotation : Bool) : PanelSpliceLayout :=
  if !allowRotation then calculateSpliceLayout panelWidth panelHeight panelName false
  else
    let normalLayout := calculateSpliceLayout panelWidth panelHeight panelName false
    let rotatedLayout := calculateSpliceLayout panelWidth panelHeight panelName true
    if rotatedLayout.sheetCount = 1 ∧ rotatedLayout.splices.length = 0 then rotatedLayout
    else if (rotatedLayout.sheetCount : ℚ) < (normalLayout.sheetCount : ℚ) * 0.5 then
      rotatedLayout
    else normalLayout

/-- PlywoodSplicer.calculateCrateSplicing. -/
def calculateCrateSplicing (frontWidth frontHeight sideWidth sideHeight topWidth topLength : ℚ)
    (includeBottom : Bool) (allowRotation : Bool) : List PanelSpliceLayout :=
  [calculateOptimizedSpliceLayout frontWidth frontHeight "FRONT_PANEL" allowRotation,
   calculateOptimizedSpliceLayout frontWidth frontHeight "BACK_PANEL" allowRotation,
   calculateOptimizedSpliceLayout sideWidth sideHeight "LEFT_END_PANEL" allowRotation,
   calculateOptimizedSpliceLayout sideWidth sideHeight "RIGHT_END_PANEL" allowRotation,
   calculateOptimizedSpliceLayout topWidth topLength "TOP_PANEL" allowRotation] ++
  (if includeBottom then
    [calculateOptimizedSpliceLayout topWidth topLength "BOTTOM_PANEL" allowRotation]
   else [])

/-- PlywoodSplicer.calculateMaterialUsage: total sheets, panel area, waste and
efficiency over a list of layouts. -/
def calculateMaterialUsage (layouts : List PanelSpliceLayout) : ℕ × ℚ × ℚ × ℚ :=
  let sheetArea := MAX_SHEET_WIDTH * MAX_SHEET_HEIGHT
  let totalPanelArea := (layouts.map (fun l => l.panelWidth * l.panelHeight)).sum
  let totalSheets : ℕ := (layouts.map (fun l => l.sheetCount)).sum
  let totalSheetArea := (totalSheets : ℚ) * sheetArea
  let wasteArea := totalSheetArea - totalPanelArea
  let efficiency := totalPanelArea / totalSheetArea * 100
  (totalSheets, totalPanelArea, wasteArea, efficiency)

end PlywoodSplicer

/-! ## Data model of src/lib/cleat-calculator.ts -/

/-- Cleat type tag. -/
inductive CleatType
| perimeter
| intermediate
| splice
deriving DecidableEq

/-- Cleat position tag. -/
inductive CleatPos
| top
| bottom
| left
| right
| intermediate
deriving DecidableEq

/-- The uppercase position label used in perimeter cleat ids. -/
def CleatPos.upperName : CleatPos → String
| CleatPos.top => "TOP"
| CleatPos.bottom => "BOTTOM"
| CleatPos.left => "LEFT"
| CleatPos.right => "RIGHT"
| CleatPos.intermediate => "INTERMEDIATE"

/-- interface Cleat. -/
structure Cleat where
  id : String
  type : CleatType
  co : Orient
  pos : CleatPos
  x : ℚ
  y : ℚ
  length : ℚ
  width : ℚ
  thickness : ℚ
deriving DecidableEq

/-- interface PanelCleatLayout. -/
structure PanelCleatLayout where
  panelName : String
  panelWidth : ℚ
  panelHeight : ℚ
  cleats : List Cleat
  isRotated : Bool
deriving DecidableEq

namespace CleatCalculator

def CLEAT_WIDTH : ℚ := 3.5
def CLEAT_THICKNESS : ℚ := 0.75
def MAX_CLEAT_SPACING : ℚ := 24

/-- CleatCalculator.createPerimeterCleat. -/
def createPerimeterCleat (panelName : String) (co : Orient) (pos : CleatPos)
    (x y length : ℚ) : Cleat :=
  { id := panelName ++ "_CLEAT_" ++ pos.upperName
    type := CleatType.perimeter
    co := co
    pos := pos
    x := x
    y := y
    length := length
    width := CLEAT_WIDTH
    thickness := CLEAT_THICKNESS }

/-- The availableWidth of calculateIntermediateVerticalCleats: the panel width
minus the two edge cleats. -/
def availableWidthOf (panelWidth : ℚ) : ℚ := panelWidth - 2 * CLEAT_WIDTH

/-- The minCleats count of calculateIntermediateVerticalCleats. -/
def minCleatsOf (panelWidth : ℚ) : ℤ :=
  jsCeil (availableWidthOf panelWidth / MAX_CLEAT_SPACING) - 1

/-- The even spacing used between intermediate vertical cleats. -/
def interSpacing (panelWidth : ℚ) : ℚ :=
  availableWidthOf panelWidth / ((minCleatsOf panelWidth : ℚ) + 1)

/-- CleatCalculator.calculateIntermediateVerticalCleats.  The isRotated
parameter is accepted but, as in the source, not used by the computation. -/
def calculateIntermediateVerticalCleats (panelName : String)
    (panelWidth panelHeight : ℚ) (isSide : Bool) (_isRotated : Bool) : List Cleat :=
  let minCleats := minCleatsOf panelWidth
  if 0 < minCleats then
    let spacing := interSpacing panelWidth
    (List.range minCleats.toNat).map (fun (i : ℕ) =>
      { id := panelName ++ "_CLEAT_VERT_" ++ toString (i + 1)
        type := CleatType.intermediate
        co := Orient.vertical
        pos := CleatPos.intermediate
        x := CLEAT_WIDTH + ((i : ℚ) + 1) * spacing - CLEAT_WIDTH / 2
        y := if isSide then 0 else CLEAT_WIDTH
        length := if isSide then panelHeight else panelHeight - 2 * CLEAT_WIDTH
        width := CLEAT_WIDTH
        thickness := CLEAT_THICKNESS })
  else []

/-- CleatCalculator.calculateSpliceCleats. -/
def calculateSpliceCleats (panelName : String) (panelWidth panelHeight : ℚ)
    (splicePositions : List SplicePosition) (isSide : Bool) : List Cleat :=
  splicePositions.enum.map (fun p =>
    match p.2.co with
    | Orient.vertical =>
        { id := panelName ++ "_CLEAT_SPLICE_V_" ++ toString p.1
          type := CleatType.splice
          co := Orient.vertical
          pos := CleatPos.intermediate
          x := p.2.x - CLEAT_WIDTH / 2
          y := if isSide then 0 else CLEAT_WIDTH
          length := if isSide then panelHeight else panelHeight - 2 * CLEAT_WIDTH
          width := CLEAT_WIDTH
          thickness := CLEAT_THICKNESS }
    | Orient.horizontal =>
        { id := panelName ++ "_CLEAT_SPLICE_H_" ++ toString p.1
          type := CleatType.splice
          co := Orient.horizontal
          pos := CleatPos.intermediate
          x := if isSide then CLEAT_WIDTH else 0
          y := p.2.y - CLEAT_WIDTH / 2
          length := if isSide then panelWidth - 2 * CLEAT_WIDTH else panelWidth
          width := CLEAT_WIDTH
          thickness := CLEAT_THICKNESS })

/-- CleatCalculator.calculateCleatLayout. -/
def calculateCleatLayout (panelName : String) (panelWidth panelHeight : ℚ)
    (splicePositions : List SplicePosition) (isRotated : Bool) : PanelCleatLayout :=
  let isFrontBack := jsIncludes panelName "FRONT" || jsIncludes panelName "BACK"
  let isSide := jsIncludes panelName "LEFT_END" || jsIncludes panelName "RIGHT_END"
  let isTop := jsIncludes panelName "TOP"
  let perimeter : List Cleat :=
    if isFrontBack || isTop then
      [createPerimeterCleat panelName Orient.horizontal CleatPos.bottom 0 0 panelWidth,
       createPerimeterCleat panelName Orient.horizontal CleatPos.top
         0 (panelHeight - CLEAT_WIDTH) panelWidth,
       createPerimeterCleat panelName Orient.vertical CleatPos.left
         0 CLEAT_WIDTH (panelHeight - 2 * CLEAT_WIDTH),
       createPerimeterCleat panelName Orient.vertical CleatPos.right
         (panelWidth - CLEAT_WIDTH) CLEAT_WIDTH (panelHeight - 2 * CLEAT_WIDTH)]
    else if isSide then
      [createPerimeterCleat panelName Orient.vertical CleatPos.left 0 0 panelHeight,
       createPerimeterCleat panelName Orient.vertical CleatPos.right
         (panelWidth - CLEAT_WIDTH) 0 panelHeight,
       createPerimeterCleat panelName Orient.horizontal CleatPos.bottom
         CLEAT_WIDTH 0 (panelWidth - 2 * CLEAT_WIDTH),
       createPerimeterCleat panelName Orient.horizontal CleatPos.top
         CLEAT_WIDTH (panelHeight - CLEAT_WIDTH) (panelWidth - 2 * CLEAT_WIDTH)]
    else []
  let cleats := perimeter ++
    calculateIntermediateVerticalCleats panelName panelWidth panelHeight isSide isRotated ++
    calculateSpliceCleats panelName panelWidth panelHeight splicePositions isSide
  { panelName := panelName
    panelWidth := panelWidth
    panelHeight := panelHeight
    cleats := cleats
    isRotated := isRotated }

/-- CleatCalculator.calculateCleatMaterial: total cleats, total linear feet,
estimated count of 8ft 1x4 boards. -/
def calculateCleatMaterial (layouts : List PanelCleatLayout) : ℕ × ℚ × ℤ :=
  let totalCleats : ℕ := (layouts.map (fun l => l.cleats.length)).sum
  let totalLinearInches : ℚ :=
    (layouts.map (fun l => (l.cleats.map (fun c => c.length)).sum)).sum
  let totalLinearFeet := totalLinearInches / 12
  let estimated1x4Count := jsCeil (totalLinearFeet / 8)
  (totalCleats, totalLinearFeet, estimated1x4Count)

end CleatCalculator

/-! ## Data model of src/lib/nx-generator.ts -/

/-- interface ProductDimensions. -/
structure ProductDimensions where
  length : ℚ
  width : ℚ
  height : ℚ
  weight : ℚ
deriving DecidableEq

/-- The clearances record of CrateConfig; the source field named end is
called endc here because end is a Lean keyword. -/
structure ClearancesCfg where
  side : ℚ
  endc : ℚ
  top : ℚ
deriving DecidableEq

/-- The materials record of CrateConfig.  Optional fields are Options. -/
structure MaterialsCfg where
  skidSize : String
  panelThickness : ℚ
  cleatSize : String
  allow3x4Lumber : Option Bool
  availableLumber : Option (List String)
deriving DecidableEq

/-- interface CrateConfig. -/
structure CrateConfig where
  product : ProductDimensions
  clearances : ClearancesCfg
  materials : MaterialsCfg
deriving DecidableEq

/-- interface Point3D. -/
structure Point3D where
  x : ℚ
  y : ℚ
  z : ℚ
deriving DecidableEq

/-- The component type tag of NXBox. -/
inductive BoxType
| skid
| floor
| panel
| cleat
| plywood
deriving DecidableEq

/-- interface NXBox.  The metadata string field is omitted: it is free-form
documentation text and no claim refers to it.  Fields that the source leaves
undefined on some constructions are Options. -/
structure NXBox where
  name : String
  point1 : Point3D
  point2 : Point3D
  color : String
  type : BoxType
  suppressed : Option Bool
  plywoodPieceIndex : Option ℕ
  panelName : Option String
deriving DecidableEq

/-- The skid cross-section record returned by getSkidDimensions. -/
structure SkidDims where
  height : ℚ
  width : ℚ
  nominal : String
deriving DecidableEq

/-- The record returned by getSkidSpacing. -/
structure SpacingInfo where
  maxSpacing : ℚ
  count : ℤ
deriving DecidableEq

/-- The record returned by getFloorboardDimensions. -/
structure FloorboardDims where
  width : ℚ
  thickness : ℚ
  nominal : String
deriving DecidableEq

/-- A floorboard entry of the layout produced by getFloorboardLayout.  The
optional isCustom flag of the source (undefined on standard boards, hence
falsy) is a Bool defaulted to false. -/
structure FloorBoard where
  nominal : String
  width : ℚ
  thickness : ℚ
  position : ℚ
  isCustom : Bool
deriving DecidableEq

/-- A lumber option of getFloorboardDimensions; maxWeight and maxSpan are
none when the source lists Infinity (every comparison against them holds). -/
structure LumberRated where
  nominal : String
  width : ℚ
  thickness : ℚ
  maxWeight : Option ℚ
  maxSpan : Option ℚ
deriving DecidableEq

/-- A lumber option of getFloorboardLayout. -/
structure LumberOpt where
  nominal : String
  width : ℚ
  thickness : ℚ
deriving DecidableEq

namespace NXGenerator

/-- weight less-or-equal against a rating that may be Infinity (none). -/
def leOptQ (x : ℚ) : Option ℚ → Bool
| none => true
| some m => decide (x ≤ m)

/-- NXGenerator.getSkidDimensions: the weight-band step function of
Table 5-3. -/
def getSkidDimensions (cfg : CrateConfig) : SkidDims :=
  let weight := cfg.product.weight
  let allow3x4 := cfg.materials.allow3x4Lumber.getD false
  if weight ≤ 500 ∧ allow3x4 = true then { height := 3.5, width := 2.5, nominal := "3x4" }
  else if weight ≤ 4500 then { height := 3.5, width := 3.5, nominal := "4x4" }
  else if weight ≤ 20000 then { height := 3.5, width := 5.5, nominal := "4x6" }
  else if weight ≤ 40000 then { height := 5.5, width := 5.5, nominal := "6x6" }
  else if weight ≤ 60000 then { height := 7.25, width := 7.25, nominal := "8x8" }
  else { height := 7.25, width := 7.25, nominal := "8x8" }

/-- NXGenerator.getSkidSpacing: Table 5-4. -/
def getSkidSpacing (cfg : CrateConfig) : SpacingInfo :=
  let weight := cfg.product.weight
  let skidDims := getSkidDimensions cfg
  if skidDims.nominal = "3x4" ∨ skidDims.nominal = "4x4" then
    { maxSpacing := 30, count := 3 }
  else if skidDims.nominal = "4x6" then
    if weight ≤ 6000 then { maxSpacing := 41, count := 3 }
    else if weight ≤ 12000 then { maxSpacing := 28, count := 4 }
    else if weight ≤ 20000 then { maxSpacing := 24, count := 4 }
    else { maxSpacing := 24, count := 4 }
  else if skidDims.nominal = "6x6" then
    if weight ≤ 30000 then { maxSpacing := 24, count := 4 }
    else { maxSpacing := 20, count := 5 }
  else if skidDims.nominal = "8x8" then
    { maxSpacing := 24, count := 5 }
  else { maxSpacing := 30, count := 3 }

/-- NXGenerator.getSkidCount. -/
def getSkidCount (cfg : CrateConfig) : ℤ :=
  let spacingInfo := getSkidSpacing cfg
  let internalWidth := cfg.product.width + 2 * cfg.clearances.side
  let skidDims := getSkidDimensions cfg
  if internalWidth ≤ spacingInfo.maxSpacing + skidDims.width then 2
  else
    let availableSpace := internalWidth - skidDims.width
    let numberOfGaps := jsCeil (availableSpace / spacingInfo.maxSpacing)
    let requiredCount := numberOfGaps + 1
    max requiredCount spacingInfo.count

/-- The rated lumber table of getFloorboardDimensions. -/
def fbRatedOptions : List LumberRated :=
  [{ nominal := "2x6", width := 5.5, thickness := 1.5, maxWeight := some 2000, maxSpan := some 24 },
   { nominal := "2x8", width := 7.25, thickness := 1.5, maxWeight := some 4000, maxSpan := some 36 },
   { nominal := "2x10", width := 9.25, thickness := 1.5, maxWeight := some 8000, maxSpan := some 48 },
   { nominal := "2x12", width := 11.25, thickness := 1.5, maxWeight := none, maxSpan := none }]

/-- The default lumber list substituted for a missing availableLumber field. -/
def defaultLumberList : List String := ["2x6", "2x8", "2x10", "2x12"]

/-- NXGenerator.getFloorboardDimensions. -/
def getFloorboardDimensions (cfg : CrateConfig) : FloorboardDims :=
  let weight := cfg.product.weight
  let internalLength := cfg.product.length + 2 * cfg.clearances.endc
  let availableLumber := cfg.materials.availableLumber.getD defaultLumberList
  let availableOptions := fbRatedOptions.filter (fun o => availableLumber.contains o.nominal)
  if availableOptions = [] then { width := 5.5, thickness := 1.5, nominal := "2x6" }
  else
    let sortedOptions := jsSortBy (fun a b => decide (a.width ≤ b.width)) availableOptions
    match sortedOptions.find?
        (fun o => leOptQ weight o.maxWeight && leOptQ internalLength o.maxSpan) with
    | some o => { width := o.width, thickness := o.thickness, nominal := o.nominal }
    | none =>
        let largestOption :=
          sortedOptions.getLastD { nominal := "2x6", width := 5.5, thickness := 1.5,
                                   maxWeight := some 2000, maxSpan := some 24 }
        { width := largestOption.width, thickness := largestOption.thickness,
          nominal := largestOption.nominal }

/-- The plain lumber table of getFloorboardLayout. -/
def fbLumberOptions : List LumberOpt :=
  [{ nominal := "2x6", width := 5.5, thickness := 1.5 },
   { nominal := "2x8", width := 7.25, thickness := 1.5 },
   { nominal := "2x10", width := 9.25, thickness := 1.5 },
   { nominal := "2x12", width := 11.25, thickness := 1.5 }]

/-- The 1/8 inch gap between floorboards. -/
def gapBetweenBoards : ℚ := 0.125

/-- The available lumber options of getFloorboardLayout: filtered, sorted
largest-width first, with the 2x6 fallback pushed when the list is empty. -/
def fbAvailableOptions (availableLumber : List String) : List LumberOpt :=
  let sorted := jsSortBy (fun a b => decide (b.width ≤ a.width))
    (fbLumberOptions.filter (fun o => availableLumber.contains o.nominal))
  if sorted = [] then [{ nominal := "2x6", width := 5.5, thickness := 1.5 }] else sorted

/-- The greedy fill loop of getFloorboardLayout.  The fuel argument counts the
remaining board slots out of 40, so fuel = 0 is the layout.length < 40 bound
of the source loop; each placed standard board consumes one slot, and the
custom board ends the loop. -/
def greedyFill (options : List LumberOpt) : ℕ → ℚ → ℚ → List FloorBoard
| 0, _, _ => []
| fuel + 1, remainingLength, currentPosition =>
  if 0.25 < remainingLength then
    match options.find? (fun l => decide (l.width + gapBetweenBoards ≤ remainingLength)) with
    | some l =>
        { nominal := l.nominal, width := l.width, thickness := l.thickness,
          position := currentPosition, isCustom := false } ::
        greedyFill options fuel (remainingLength - (l.width + gapBetweenBoards))
          (currentPosition + (l.width + gapBetweenBoards))
    | none =>
        if 0.25 ≤ remainingLength then
          let customWidth :=
            if gapBetweenBoards < remainingLength then remainingLength - gapBetweenBoards
            else remainingLength
          if 0.25 ≤ customWidth then
            [{ nominal := "CUSTOM", width := customWidth,
               thickness := (options.headD { nominal := "2x6", width := 5.5, thickness := 1.5 }).thickness,
               position := currentPosition, isCustom := true }]
          else []
        else []
  else []

/-- The symmetric re-ordering of getFloorboardLayout: boards sorted by width
descending are assigned alternately to the front end (even index, ascending
position) and the back end (odd index, descending position). -/
def symmetricPlace (gap : ℚ) : List FloorBoard → ℚ → ℚ → ℕ → List FloorBoard
| [], _, _, _ => []
| b :: rest, frontPos, backPos, i =>
  if i % 2 = 0 then
    { b with position := frontPos } :: symmetricPlace gap rest (frontPos + b.width + gap) backPos (i + 1)
  else
    { b with position := backPos - b.width } ::
      symmetricPlace gap rest frontPos (backPos - b.width - gap) (i + 1)

/-- The overlap-resolution pass of getFloorboardLayout: walking the list in
position order, each board whose start is before the previous board end plus
the gap is clamped to that end. -/
def clampBoards (gap : ℚ) : FloorBoard → List FloorBoard → List FloorBoard
| _, [] => []
| prev, c :: rest =>
    let prevEnd := prev.position + prev.width + gap
    let c2 := if c.position < prevEnd then { c with position := prevEnd } else c
    c2 :: clampBoards gap c2 rest

/-- The clamp pass applied to a whole list (the first board is never moved). -/
def clampLayout (gap : ℚ) : List FloorBoard → List FloorBoard
| [] => []
| b :: rest => b :: clampBoards gap b rest

/-- NXGenerator.getFloorboardLayout. -/
def getFloorboardLayout (cfg : CrateConfig) : List FloorBoard :=
  let internalLength := cfg.product.length + 2 * cfg.clearances.endc
  let availableLumber := cfg.materials.availableLumber.getD defaultLumberList
  let panelThickness := cfg.materials.panelThickness
  let availableOptions := fbAvailableOptions availableLumber
  let effectiveLength := internalLength
  let layout := greedyFill availableOptions 40 effectiveLength panelThickness
  if layout = [] then []
  else
    let sortedBySize := jsSortBy (fun a b => decide (b.width ≤ a.width)) layout
    let symmetricLayout :=
      symmetricPlace gapBetweenBoards sortedBySize panelThickness (internalLength + panelThickness) 0
    let sortedByPosition := jsSortBy (fun a b => decide (a.position ≤ b.position)) symmetricLayout
    clampLayout gapBetweenBoards sortedByPosition

/-- NXGenerator.getFloorboardCount. -/
def getFloorboardCount (cfg : CrateConfig) : ℕ := (getFloorboardLayout cfg).length

/-! ### The generator state and the composition steps

The NXGenerator class holds mutable fields boxes, expressions,
panelSpliceLayouts and panelCleatLayouts, all freshly initialised to empty by
each construction; the constructor runs calculate, which fills the expression
map, then runs calculatePanelSplicing, generateShippingBase and
generateCrateCap in order.  This is modelled by explicit state passing. -/

/-- The mutable fields of the NXGenerator class.  The insertion-ordered
Map of expressions is modelled as an association list. -/
structure GenState where
  expressions : List (String × ℚ)
  boxes : List NXBox
  panelSpliceLayouts : List PanelSpliceLayout
  panelCleatLayouts : List PanelCleatLayout
deriving DecidableEq

/-- The freshly initialised state of a new NXGenerator. -/
def initState : GenState := { expressions := [], boxes := [], panelSpliceLayouts := [], panelCleatLayouts := [] }

/-- Map.prototype.set: replace the value in place when the key is present
(keeping insertion order), append otherwise. -/
def setExpr (m : List (String × ℚ)) (k : String) (v : ℚ) : List (String × ℚ) :=
  if m.any (fun p => p.1 == k) then
    m.map (fun p => if p.1 == k then (k, v) else p)
  else m ++ [(k, v)]

/-- A sequence of Map.prototype.set calls in order. -/
def setExprs (m : List (String × ℚ)) (kvs : List (String × ℚ)) : List (String × ℚ) :=
  kvs.foldl (fun acc p => setExpr acc p.1 p.2) m

/-- this.expressions.get(k)! — the source asserts the key is present; absent
keys (never exercised) read as 0. -/
def exprGet (m : List (String × ℚ)) (k : String) : ℚ := (m.lookup k).getD 0

/-- The skid_nominal expression value: the source stores the string length of
the nominal label (0 for a falsy, that is empty, label). -/
def nominalLenVal (nominal : String) : ℚ :=
  if nominal = "" then 0 else (nominal.length : ℚ)

/-- The first part of NXGenerator.calculate: every expression set before the
call to calculatePanelSplicing, in source order. -/
def calcExpressionsStep (cfg : CrateConfig) (s : GenState) : GenState :=
  let product := cfg.product
  let clearances := cfg.clearances
  let materials := cfg.materials
  let internalWidth := product.width + 2 * clearances.side
  let internalLength := product.length + 2 * clearances.endc
  let internalHeight := product.height + clearances.top
  let skidDims := getSkidDimensions cfg
  let floorboardDims := getFloorboardDimensions cfg
  let panelThickness := materials.panelThickness
  let overallWidth := internalWidth + 2 * panelThickness
  let overallLength := internalLength + 2 * panelThickness
  let overallHeight := internalHeight + skidDims.height + floorboardDims.thickness + panelThickness
  let spacingInfo := getSkidSpacing cfg
  let skidCount := getSkidCount cfg
  let actualSpacing :=
    if 1 < skidCount then
      if internalWidth - skidDims.width < ((skidCount : ℚ) - 1) * spacingInfo.maxSpacing then
        (internalWidth - skidDims.width) / ((skidCount : ℚ) - 1)
      else spacingInfo.maxSpacing
    else spacingInfo.maxSpacing
  { s with expressions := setExprs s.expressions (
      [("product_length", product.length),
       ("product_width", product.width),
       ("product_height", product.height),
       ("product_weight", product.weight),
       ("clearance_side", clearances.side),
       ("clearance_end", clearances.endc),
       ("clearance_top", clearances.top),
       ("internal_width", internalWidth),
       ("internal_length", internalLength),
       ("internal_height", internalHeight),
       ("panel_thickness", panelThickness),
       ("skid_height", skidDims.height),
       ("skid_width", skidDims.width),
       ("skid_nominal", nominalLenVal skidDims.nominal),
       ("floorboard_width", floorboardDims.width),
       ("floorboard_thickness", floorboardDims.thickness),
       ("floorboard_length", internalWidth),
       ("floorboard_gap", 0.125),
       ("floorboard_count", (getFloorboardCount cfg : ℚ)),
       ("overall_width", overallWidth),
       ("overall_length", overallLength),
       ("overall_height", overallHeight),
       ("skid_max_spacing", spacingInfo.maxSpacing),
       ("skid_count", (skidCount : ℚ)),
       ("pattern_count", (skidCount : ℚ)),
       ("pattern_spacing", actualSpacing)]) }

/-- The per-panel expression entries written by calculatePanelSplicing. -/
def panelExprList (pairs : List (PanelSpliceLayout × PanelCleatLayout)) : List (String × ℚ) :=
  pairs.flatMap (fun p =>
    [(jsToLower p.1.panelName ++ "_splice_count", (p.1.splices.length : ℚ)),
     (jsToLower p.1.panelName ++ "_sheet_count", (p.1.sheetCount : ℚ)),
     (jsToLower p.2.panelName ++ "_cleat_count", (p.2.cleats.length : ℚ))])

/-- NXGenerator.calculatePanelSplicing: computes the panel dimensions, runs
the plywood packer and the cleat calculator on each panel, and records the
derived per-panel and aggregate expressions. -/
def calcPanelSplicingStep (_cfg : CrateConfig) (s : GenState) : GenState :=
  let internalWidth := exprGet s.expressions "internal_width"
  let internalLength := exprGet s.expressions "internal_length"
  let internalHeight := exprGet s.expressions "internal_height"
  let panelThickness := exprGet s.expressions "panel_thickness"
  let skidHeight := exprGet s.expressions "skid_height"
  let floorboardThickness := exprGet s.expressions "floorboard_thickness"
  let frontBackWidth := internalWidth + 2 * panelThickness
  let frontBackHeight := internalHeight + floorboardThickness
  let sideWidth := internalLength
  let sideHeight := internalHeight + floorboardThickness + skidHeight - 2
  let topWidth := internalWidth + 2 * panelThickness
  let topLength := internalLength + 2 * panelThickness
  let layouts := PlywoodSplicer.calculateCrateSplicing frontBackWidth frontBackHeight
    sideWidth sideHeight topWidth topLength false true
  let cleatLayouts := layouts.map (fun l =>
    CleatCalculator.calculateCleatLayout l.panelName l.panelWidth l.panelHeight l.splices l.isRotated)
  let pairs := layouts.zip cleatLayouts
  let totalSheets : ℕ := (layouts.map (fun l => l.sheetCount)).sum
  let totalCleats : ℕ := (cleatLayouts.map (fun l => l.cleats.length)).sum
  let usage := PlywoodSplicer.calculateMaterialUsage layouts
  let cleatUsage := CleatCalculator.calculateCleatMaterial cleatLayouts
  { s with
    panelSpliceLayouts := layouts
    panelCleatLayouts := cleatLayouts
    expressions := setExprs s.expressions
      (panelExprList pairs ++
       [("total_plywood_sheets", (totalSheets : ℚ)),
        ("total_cleats", (totalCleats : ℚ)),
        ("plywood_efficiency", (jsRound (usage.2.2.2 * 100) : ℚ) / 100),
        ("plywood_waste_area", (jsRound usage.2.2.1 : ℚ)),
        ("cleat_linear_feet", (jsRound (cleatUsage.2.1 * 100) : ℚ) / 100),
        ("cleat_1x4_count", (cleatUsage.2.2 : ℚ))]) }

/-- The skid center positions computed by generateShippingBase: a single
centered skid, two edge skids, or edge skids with evenly spaced
intermediates. -/
def skidPositionsCalc (internalWidth skidWidth : ℚ) (skidCount : ℕ) : List ℚ :=
  if skidCount = 1 then [0]
  else if skidCount = 2 then
    [-(internalWidth / 2 - skidWidth / 2), internalWidth / 2 - skidWidth / 2]
  else
    let edgeOffset := internalWidth / 2 - skidWidth / 2
    let availableSpan := 2 * edgeOffset
    let actualSpacing := availableSpan / ((skidCount : ℚ) - 1)
    (List.range skidCount).map (fun (i : ℕ) => -edgeOffset + (i : ℚ) * actualSpacing)

/-- NXGenerator.generateShippingBase: skid boxes, active floorboard boxes and
suppressed floorboard placeholders up to 40 slots. -/
def generateShippingBaseStep (cfg : CrateConfig) (s : GenState) : GenState :=
  let skidDims := getSkidDimensions cfg
  let skidCount := (getSkidCount cfg).toNat
  let internalWidth := exprGet s.expressions "internal_width"
  let internalLength := exprGet s.expressions "internal_length"
  let panelThickness := exprGet s.expressions "panel_thickness"
  let skidPositions := skidPositionsCalc internalWidth skidDims.width skidCount
  let skidEndY := internalLength + 2 * panelThickness
  let skidBoxes := skidPositions.enum.map (fun p =>
    let skidX := p.2 - skidDims.width / 2
    ({ name := if p.1 = 0 then "SKID" else "SKID_PATTERN_" ++ toString p.1
       point1 := { x := skidX, y := 0, z := 0 }
       point2 := { x := skidX + skidDims.width, y := skidEndY, z := skidDims.height }
       color := "#8B4513"
       type := BoxType.skid
       suppressed := none
       plywoodPieceIndex := none
       panelName := none } : NXBox))
  let floorboardLayout := getFloorboardLayout cfg
  let fbBoxes := floorboardLayout.enum.map (fun p =>
    ({ name := "FLOORBOARD_" ++ toString (p.1 + 1)
       point1 := { x := -internalWidth / 2, y := p.2.position, z := skidDims.height }
       point2 := { x := internalWidth / 2, y := p.2.position + p.2.width,
                   z := skidDims.height + p.2.thickness }
       color := if p.2.isCustom then "#FFB347" else "#DEB887"
       type := BoxType.floor
       suppressed := some false
       plywoodPieceIndex := none
       panelName := none } : NXBox))
  let fbPlaceholders := (List.range (40 - floorboardLayout.length)).map (fun j =>
    ({ name := "FLOORBOARD_" ++ toString (floorboardLayout.length + j + 1)
       point1 := { x := 0, y := 0, z := skidDims.height }
       point2 := { x := 0, y := 0, z := skidDims.height }
       color := "#888888"
       type := BoxType.floor
       suppressed := some true
       plywoodPieceIndex := none
       panelName := none } : NXBox))
  { s with boxes := s.boxes ++ skidBoxes ++ fbBoxes ++ fbPlaceholders }

/-- The 3D corner points of a plywood section box, dispatching on the panel
name exactly as generateCrateCap does; none models the continue branch for an
unrecognised panel name. -/
def mkPlyPoints (panelName : String) (internalWidth internalLength internalHeight
    panelThickness skidHeight baseZ : ℚ) (s : PlywoodSection) :
    Option (Point3D × Point3D) :=
  let sideGroundClearance : ℚ := 2
  if panelName = "FRONT_PANEL" then
    let ox := -internalWidth / 2 - panelThickness
    some ({ x := ox + s.x, y := 0, z := skidHeight + s.y },
          { x := ox + s.x + s.width, y := panelThickness, z := skidHeight + s.y + s.height })
  else if panelName = "BACK_PANEL" then
    let ox := -internalWidth / 2 - panelThickness
    let oy := internalLength + panelThickness
    some ({ x := ox + s.x, y := oy, z := skidHeight + s.y },
          { x := ox + s.x + s.width, y := oy + panelThickness, z := skidHeight + s.y + s.height })
  else if panelName = "LEFT_END_PANEL" then
    let ox := -internalWidth / 2 - panelThickness
    some ({ x := ox, y := panelThickness + s.x, z := sideGroundClearance + s.y },
          { x := ox + panelThickness, y := panelThickness + s.x + s.width,
            z := sideGroundClearance + s.y + s.height })
  else if panelName = "RIGHT_END_PANEL" then
    let ox := internalWidth / 2
    some ({ x := ox, y := panelThickness + s.x, z := sideGroundClearance + s.y },
          { x := ox + panelThickness, y := panelThickness + s.x + s.width,
            z := sideGroundClearance + s.y + s.height })
  else if panelName = "TOP_PANEL" then
    let ox := -internalWidth / 2 - panelThickness
    some ({ x := ox + s.x, y := s.y, z := baseZ + internalHeight },
          { x := ox + s.x + s.width, y := s.y + s.height, z := baseZ + internalHeight + panelThickness })
  else none

/-- The per-piece color ramp of generateCrateCap. -/
def plyColor (i : ℕ) : String :=
  if i = 0 then "#F5DEB3" else if i = 1 then "#FFE4B5" else if i = 2 then "#FFDEAD"
  else if i = 3 then "#F4E4C1" else if i = 4 then "#E6D2A3" else "#D4C29C"

/-- The section loop of generateCrateCap for one panel: stop at piece index 6,
skip sections of unrecognised panels, and return the boxes together with the
final piece index. -/
def plyLoop (layout : PanelSpliceLayout)
    (mkP : PlywoodSection → Option (Point3D × Point3D)) :
    List PlywoodSection → ℕ → List NXBox × ℕ
| [], i => ([], i)
| sec :: rest, i =>
  if 6 ≤ i then ([], i)
  else
    match mkP sec with
    | none => plyLoop layout mkP rest i
    | some pq =>
        let r := plyLoop layout mkP rest (i + 1)
        ({ name := layout.panelName ++ "_PLY_" ++ toString (i + 1)
           point1 := pq.1
           point2 := pq.2
           color := plyColor i
           type := BoxType.plywood
           suppressed := some (decide (layout.sheets.length ≤ i))
           plywoodPieceIndex := some i
           panelName := some layout.panelName } :: r.1, r.2)

/-- The placeholder fill loop of generateCrateCap: suppressed zero-volume
pieces from the final piece index up to 6. -/
def plyPlaceholders (panelName : String) (i : ℕ) : List NXBox :=
  (List.range (6 - i)).map (fun j =>
    { name := panelName ++ "_PLY_" ++ toString (i + j + 1)
      point1 := { x := 0, y := 0, z := 0 }
      point2 := { x := 0, y := 0, z := 0 }
      color := "#888888"
      type := BoxType.plywood
      suppressed := some true
      plywoodPieceIndex := some (i + j)
      panelName := some panelName })

/-- All plywood boxes emitted by generateCrateCap for one panel layout. -/
def plyBoxesFor (internalWidth internalLength internalHeight panelThickness
    skidHeight baseZ : ℚ) (layout : PanelSpliceLayout) : List NXBox :=
  let r := plyLoop layout
    (mkPlyPoints layout.panelName internalWidth internalLength internalHeight
      panelThickness skidHeight baseZ) layout.sheets 0
  r.1 ++ plyPlaceholders layout.panelName r.2

/-- The 3D corner points of one cleat box, dispatching on the panel name and
the cleat orientation exactly as generateCrateCap does; none models the
unassigned point1/point2 of an unrecognised panel name (no box pushed). -/
def mkCleatPoints (panelName : String) (internalWidth internalLength internalHeight
    panelThickness skidHeight floorboardThickness baseZ : ℚ) (c : Cleat) :
    Option (Point3D × Point3D) :=
  let sideGroundClearance : ℚ := 2
  let frontBack := panelName = "FRONT_PANEL" ∨ panelName = "BACK_PANEL"
  let side := panelName = "LEFT_END_PANEL" ∨ panelName = "RIGHT_END_PANEL"
  let top := panelName = "TOP_PANEL"
  let ox :=
    if panelName = "FRONT_PANEL" then -internalWidth / 2
    else if panelName = "BACK_PANEL" then -internalWidth / 2
    else if panelName = "LEFT_END_PANEL" then -internalWidth / 2
    else if panelName = "RIGHT_END_PANEL" then internalWidth / 2 - 0.75
    else if panelName = "TOP_PANEL" then -internalWidth / 2
    else 0
  let oy :=
    if panelName = "FRONT_PANEL" then panelThickness
    else if panelName = "BACK_PANEL" then internalLength
    else if panelName = "LEFT_END_PANEL" then panelThickness
    else if panelName = "RIGHT_END_PANEL" then panelThickness
    else 0
  let oz :=
    if panelName = "FRONT_PANEL" ∨ panelName = "BACK_PANEL" then
      skidHeight + floorboardThickness
    else if panelName = "LEFT_END_PANEL" ∨ panelName = "RIGHT_END_PANEL" then
      sideGroundClearance
    else if panelName = "TOP_PANEL" then baseZ + internalHeight - 0.75
    else 0
  match c.co with
  | Orient.horizontal =>
      if frontBack then
        some ({ x := ox + c.x, y := oy, z := oz + c.y },
              { x := ox + c.x + c.length, y := oy + c.thickness, z := oz + c.y + c.width })
      else if side then
        some ({ x := ox, y := oy + c.x, z := oz + c.y },
              { x := ox + c.thickness, y := oy + c.x + c.length, z := oz + c.y + c.width })
      else if top then
        some ({ x := ox + c.x, y := oy + c.y, z := oz },
              { x := ox + c.x + c.length, y := oy + c.y + c.width, z := oz + c.thickness })
      else none
  | Orient.vertical =>
      if frontBack then
        some ({ x := ox + c.x, y := oy, z := oz + c.y },
              { x := ox + c.x + c.width, y := oy + c.thickness, z := oz + c.y + c.length })
      else if side then
        some ({ x := ox, y := oy + c.x, z := oz + c.y },
              { x := ox + c.thickness, y := oy + c.x + c.width, z := oz + c.y + c.length })
      else if top then
        some ({ x := ox + c.x, y := oy + c.y, z := oz },
              { x := ox + c.x + c.width, y := oy + c.y + c.length, z := oz + c.thickness })
      else none

/-- NXGenerator.generateCrateCap: up to six plywood boxes per panel (padded
with suppressed placeholders), then one suppressed box per placeable cleat. -/
def generateCrateCapStep (_cfg : CrateConfig) (s : GenState) : GenState :=
  let internalWidth := exprGet s.expressions "internal_width"
  let internalLength := exprGet s.expressions "internal_length"
  let internalHeight := exprGet s.expressions "internal_height"
  let panelThickness := exprGet s.expressions "panel_thickness"
  let skidHeight := exprGet s.expressions "skid_height"
  let floorboardThickness := exprGet s.expressions "floorboard_thickness"
  let baseZ := skidHeight + floorboardThickness
  let plyBoxes := s.panelSpliceLayouts.flatMap
    (plyBoxesFor internalWidth internalLength internalHeight panelThickness skidHeight baseZ)
  let cleatBoxes := s.panelCleatLayouts.flatMap (fun cl =>
    cl.cleats.filterMap (fun c =>
      (mkCleatPoints cl.panelName internalWidth internalLength internalHeight
        panelThickness skidHeight floorboardThickness baseZ c).map (fun pq =>
        ({ name := c.id
           point1 := pq.1
           point2 := pq.2
           color := if c.type = CleatType.splice then "#CD853F" else "#8B4513"
           type := BoxType.cleat
           suppressed := some true
           plywoodPieceIndex := none
           panelName := none } : NXBox))))
  { s with boxes := s.boxes ++ plyBoxes ++ cleatBoxes }

/-- The full constructor run of NXGenerator: the state after calculate. -/
def composeState (cfg : CrateConfig) : GenState :=
  generateCrateCapStep cfg
    (generateShippingBaseStep cfg
      (calcPanelSplicingStep cfg
        (calcExpressionsStep cfg initState)))

/-- The ambient environment available to a run: the wall clock (read by the
expression-text serializer header, never by the geometry computation) and an
arbitrary stream of random numbers (never read at all). -/
structure Env where
  now : String
  random : ℕ → ℚ

/-- A run of the composer in environment env: the constructor initialises the
state to empty and performs the four phases of calculate in order.  No phase
consults env. -/
inductive Composes (cfg : CrateConfig) (env : Env) : GenState → Prop
| run (s1 s2 s3 s4 : GenState)
    (h1 : s1 = calcExpressionsStep cfg initState)
    (h2 : s2 = calcPanelSplicingStep cfg s1)
    (h3 : s3 = generateShippingBaseStep cfg s2)
    (h4 : s4 = generateCrateCapStep cfg s3) : Composes cfg env s4

end NXGenerator

/-! ## Evaluation toolkit for the integer-valued helpers -/

theorem jsCeil_eq_of (q : ℚ) (z : ℤ) (h1 : (z : ℚ) - 1 < q) (h2 : q ≤ (z : ℚ)) :
    jsCeil q = z := by
  unfold jsCeil
  exact Int.ceil_eq_iff.mpr ⟨by exact_mod_cast h1, h2⟩ |>.symm ▸ rfl

theorem jsFloor_eq_of (q : ℚ) (z : ℤ) (h1 : (z : ℚ) ≤ q) (h2 : q < (z : ℚ) + 1) :
    jsFloor q = z := by
  unfold jsFloor
  exact Int.floor_eq_iff.mpr ⟨h1, by exact_mod_cast h2⟩

theorem jsMod_eq_of (a b : ℚ) (z : ℤ) (h1 : (z : ℚ) ≤ a / b) (h2 : a / b < (z : ℚ) + 1) :
    jsMod a b = a - b * (z : ℚ) := by
  unfold jsMod
  rw [Int.floor_eq_iff.mpr ⟨h1, by exact_mod_cast h2⟩]

/-! ## Claim C4: the skid-dimension step function -/

open NXGenerator in
/-- Claim C4: skid selection is a deterministic step function of weight with
inclusive thresholds: weight at most 500 with the thin-skid flag gives nominal
3x4 (height 3.5, width 2.5); otherwise weight at most 4500 gives 4x4
(3.5 by 3.5); at most 20000 gives 4x6; at most 40000 gives 6x6; at most 60000
gives 8x8; any larger weight clamps to 8x8; and the returned height is always
at least 3.5 inches. -/
theorem claim_C4 (cfg : CrateConfig) :
    (cfg.product.weight ≤ 500 ∧ cfg.materials.allow3x4Lumber.getD false = true →
      getSkidDimensions cfg = { height := 3.5, width := 2.5, nominal := "3x4" }) ∧
    (¬(cfg.product.weight ≤ 500 ∧ cfg.materials.allow3x4Lumber.getD false = true) →
      cfg.product.weight ≤ 4500 →
      getSkidDimensions cfg = { height := 3.5, width := 3.5, nominal := "4x4" }) ∧
    (4500 < cfg.product.weight → cfg.product.weight ≤ 20000 →
      getSkidDimensions cfg = { height := 3.5, width := 5.5, nominal := "4x6" }) ∧
    (20000 < cfg.product.weight → cfg.product.weight ≤ 40000 →
      getSkidDimensions cfg = { height := 5.5, width := 5.5, nominal := "6x6" }) ∧
    (40000 < cfg.product.weight → cfg.product.weight ≤ 60000 →
      getSkidDimensions cfg = { height := 7.25, width := 7.25, nominal := "8x8" }) ∧
    (60000 < cfg.product.weight →
      getSkidDimensions cfg = { height := 7.25, width := 7.25, nominal := "8x8" }) ∧
    (3.5 : ℚ) ≤ (getSkidDimensions cfg).height := by
  unfold getSkidDimensions
  refine ⟨?_, ?_, ?_, ?_, ?_, ?_, ?_⟩
  · intro h
    rw [if_pos h]
  · intro h1 h2
    rw [if_neg h1, if_pos h2]
  · intro h1 h2
    rw [if_neg (by push_neg; intro h; linarith), if_neg (by linarith), if_pos h2]
  · intro h1 h2
    rw [if_neg (by push_neg; intro h; linarith), if_neg (by linarith),
      if_neg (by linarith), if_pos h2]
  · intro h1 h2
    rw [if_neg (by push_neg; intro h; linarith), if_neg (by linarith),
      if_neg (by linarith), if_neg (by linarith), if_pos h2]
  · intro h1
    rw [if_neg (by push_neg; intro h; linarith), if_neg (by linarith),
      if_neg (by linarith), if_neg (by linarith), if_neg (by linarith)]
  · dsimp only
    split_ifs <;> norm_num

/-- A boundary configuration with weight 0 and no thin-skid allowance. -/
def cfgWeight0 : CrateConfig :=
  { product := { length := 40, width := 30, height := 50, weight := 0 }
    clearances := { side := 2, endc := 2, top := 3 }
    materials := { skidSize := "4x4", panelThickness := 0.75, cleatSize := "2x4",
                   allow3x4Lumber := none, availableLumber := none } }

/-- A boundary configuration with weight exactly 4500. -/
def cfgWeight4500 : CrateConfig :=
  { product := { length := 40, width := 30, height := 50, weight := 4500 }
    clearances := { side := 2, endc := 2, top := 3 }
    materials := { skidSize := "4x4", panelThickness := 0.75, cleatSize := "2x4",
                   allow3x4Lumber := none, availableLumber := none } }

open NXGenerator in
/-- Witness for C4 at the band boundaries weight 0 and weight 4500: both land
in the 4x4 band, matching the inclusive thresholds. -/
theorem claim_C4_witness :
    getSkidDimensions cfgWeight0 = { height := 3.5, width := 3.5, nominal := "4x4" } ∧
    getSkidDimensions cfgWeight4500 = { height := 3.5, width := 3.5, nominal := "4x4" } :=
  ⟨(claim_C4 cfgWeight0).2.1 (by simp [cfgWeight0]) (by norm_num [cfgWeight0]),
   (claim_C4 cfgWeight4500).2.1 (by simp [cfgWeight4500]) (by norm_num [cfgWeight4500])⟩

/-! ## Claim C3: the skid spacing invariant -/

open NXGenerator in
/-- The spacing table always returns a positive maximum spacing and a minimum
count of at least 3. -/
theorem getSkidSpacing_bounds (cfg : CrateConfig) :
    0 < (getSkidSpacing cfg).maxSpacing ∧ 3 ≤ (getSkidSpacing cfg).count := by
  unfold getSkidSpacing
  dsimp only
  split_ifs <;> norm_num

open NXGenerator in
/-- The skid count is always at least 2. -/
theorem getSkidCount_ge_two (cfg : CrateConfig) : 2 ≤ getSkidCount cfg := by
  unfold getSkidCount
  dsimp only
  split_ifs with h
  · norm_num
  · have h3 := (getSkidSpacing_bounds cfg).2
    exact le_trans (le_trans (by norm_num) h3) (le_max_right _ _)

open NXGenerator in
/-- In the multi-skid branch the count covers the required number of gaps. -/
theorem getSkidCount_ge_req (cfg : CrateConfig)
    (h : ¬(cfg.product.width + 2 * cfg.clearances.side ≤
      (getSkidSpacing cfg).maxSpacing + (getSkidDimensions cfg).width)) :
    jsCeil ((cfg.product.width + 2 * cfg.clearances.side - (getSkidDimensions cfg).width) /
      (getSkidSpacing cfg).maxSpacing) + 1 ≤ getSkidCount cfg := by
  unfold getSkidCount
  dsimp only
  rw [if_neg h]
  exact le_max_left _ _

open NXGenerator in
/-- Claim C3: for every adjacent pair of skid centers placed by the composer,
the center-to-center distance is at most the table maximum spacing; two skids
are always placed at the extreme edges of the internal width (the first and
last center are at minus and plus (internalWidth - skidWidth) / 2); and when
the internal width fits within one maximum-spacing interval plus the skid
width, exactly two skids are placed. -/
theorem claim_C3 (cfg : CrateConfig) :
    List.Chain' (fun a b => b - a ≤ (getSkidSpacing cfg).maxSpacing)
      (skidPositionsCalc (cfg.product.width + 2 * cfg.clearances.side)
        (getSkidDimensions cfg).width (getSkidCount cfg).toNat) ∧
    (skidPositionsCalc (cfg.product.width + 2 * cfg.clearances.side)
        (getSkidDimensions cfg).width (getSkidCount cfg).toNat).head? =
      some (-((cfg.product.width + 2 * cfg.clearances.side) / 2 -
        (getSkidDimensions cfg).width / 2)) ∧
    (skidPositionsCalc (cfg.product.width + 2 * cfg.clearances.side)
        (getSkidDimensions cfg).width (getSkidCount cfg).toNat).getLast? =
      some ((cfg.product.width + 2 * cfg.clearances.side) / 2 -
        (getSkidDimensions cfg).width / 2) ∧
    (cfg.product.width + 2 * cfg.clearances.side ≤
        (getSkidSpacing cfg).maxSpacing + (getSkidDimensions cfg).width →
      (skidPositionsCalc (cfg.product.width + 2 * cfg.clearances.side)
        (getSkidDimensions cfg).width (getSkidCount cfg).toNat).length = 2) := by
  have hM : 0 < (getSkidSpacing cfg).maxSpacing := (getSkidSpacing_bounds cfg).1
  by_cases h : cfg.product.width + 2 * cfg.clearances.side ≤
      (getSkidSpacing cfg).maxSpacing + (getSkidDimensions cfg).width
  · have hcount : getSkidCount cfg = 2 := by
      unfold getSkidCount
      dsimp only
      rw [if_pos h]
    rw [hcount]
    have h2 : ((2 : ℤ)).toNat = 2 := rfl
    rw [h2]
    unfold skidPositionsCalc
    rw [if_neg (by norm_num), if_pos rfl]
    refine ⟨?_, rfl, rfl, fun _ => rfl⟩
    refine List.chain'_pair.mpr ?_
    linarith
  · have hcnt3 : 3 ≤ getSkidCount cfg := by
      unfold getSkidCount
      dsimp only
      rw [if_neg h]
      exact le_trans (getSkidSpacing_bounds cfg).2 (le_max_right _ _)
    have hCn : ((getSkidCount cfg).toNat : ℤ) = getSkidCount cfg :=
      Int.toNat_of_nonneg (by linarith)
    have hn3 : 3 ≤ (getSkidCount cfg).toNat := by omega
    have hreq := getSkidCount_ge_req cfg h
    have hceilZ : jsCeil ((cfg.product.width + 2 * cfg.clearances.side -
        (getSkidDimensions cfg).width) / (getSkidSpacing cfg).maxSpacing) ≤
        ((getSkidCount cfg).toNat : ℤ) - 1 := by omega
    have hceilQ : (cfg.product.width + 2 * cfg.clearances.side -
        (getSkidDimensions cfg).width) / (getSkidSpacing cfg).maxSpacing ≤
        ((getSkidCount cfg).toNat : ℚ) - 1 := by
      have h1 : (cfg.product.width + 2 * cfg.clearances.side -
          (getSkidDimensions cfg).width) / (getSkidSpacing cfg).maxSpacing ≤
          ((jsCeil ((cfg.product.width + 2 * cfg.clearances.side -
            (getSkidDimensions cfg).width) / (getSkidSpacing cfg).maxSpacing) : ℤ) : ℚ) := by
        unfold jsCeil
        exact Int.le_ceil _
      have h2 : ((jsCeil ((cfg.product.width + 2 * cfg.clearances.side -
          (getSkidDimensions cfg).width) / (getSkidSpacing cfg).maxSpacing) : ℤ) : ℚ) ≤
          ((getSkidCount cfg).toNat : ℚ) - 1 := by
        exact_mod_cast hceilZ
      linarith
    set n := (getSkidCount cfg).toNat with hn
    set iw := cfg.product.width + 2 * cfg.clearances.side with hiw
    set sw := (getSkidDimensions cfg).width with hsw
    set M := (getSkidSpacing cfg).maxSpacing with hMdef
    have hMlt : M < iw - sw := by
      push_neg at h
      linarith
    have hn1 : (0 : ℚ) < (n : ℚ) - 1 := by
      have h3 : (3 : ℚ) ≤ (n : ℚ) := by exact_mod_cast hn3
      linarith
    have hne : ((n : ℚ) - 1) ≠ 0 := ne_of_gt hn1
    have hspace : (iw - sw) / ((n : ℚ) - 1) ≤ M := by
      rw [div_le_iff₀ hn1]
      rw [div_le_iff₀ hM] at hceilQ
      linarith
    unfold skidPositionsCalc
    rw [if_neg (by omega), if_neg (by omega)]
    dsimp only
    obtain ⟨m, hm⟩ : ∃ m, n = m + 1 := ⟨n - 1, by omega⟩
    refine ⟨?_, ?_, ?_, fun hcontra => absurd hcontra h⟩
    · rw [List.chain'_iff_get]
      intro i hi
      simp only [List.length_map, List.length_range] at hi
      simp only [List.get_eq_getElem, List.getElem_map, List.getElem_range]
      have heq : (-(iw / 2 - sw / 2) + ((i : ℚ) + 1) * (2 * (iw / 2 - sw / 2) / ((n : ℚ) - 1))) -
          (-(iw / 2 - sw / 2) + (i : ℚ) * (2 * (iw / 2 - sw / 2) / ((n : ℚ) - 1))) =
          (iw - sw) / ((n : ℚ) - 1) := by
        field_simp
        ring
      push_cast
      rw [show ((i : ℚ) + 1) = ((i : ℚ) + 1) from rfl] at heq
      linarith [heq]
    · rw [hm, List.range_succ_eq_map]
      simp only [List.map_cons, List.head?_cons]
      norm_num
    · rw [hm, List.range_succ, List.map_append]
      simp only [List.map_cons, List.map_nil, List.getLast?_concat]
      have hnQ : ((n : ℚ)) = (m : ℚ) + 1 := by
        rw [hm]
        push_cast
        ring
      have hmne : ((m : ℚ)) ≠ 0 := by
        have h4 : 2 ≤ m := by omega
        have h5 : (2 : ℚ) ≤ (m : ℚ) := by exact_mod_cast h4
        linarith
      congr 1
      push_cast
      field_simp
      ring

/-- A narrow configuration: internal width 29 fits inside one maximum-spacing
interval plus the skid width. -/
def cfgSmall : CrateConfig :=
  { product := { length := 40, width := 25, height := 50, weight := 800 }
    clearances := { side := 2, endc := 2, top := 3 }
    materials := { skidSize := "4x4", panelThickness := 0.75, cleatSize := "2x4",
                   allow3x4Lumber := none, availableLumber := none } }

open NXGenerator in
/-- Witness for C3: on the narrow configuration the internal width fits in one
spacing interval plus the skid width and exactly two skids are placed. -/
theorem claim_C3_witness :
    (skidPositionsCalc (cfgSmall.product.width + 2 * cfgSmall.clearances.side)
      (getSkidDimensions cfgSmall).width (getSkidCount cfgSmall).toNat).length = 2 :=
  (claim_C3 cfgSmall).2.2.2
    (by norm_num [getSkidSpacing, getSkidDimensions, cfgSmall])

/-! ## Claim C6: intermediate cleat spacing -/

open CleatCalculator in
/-- Every splice cleat carries the splice type tag. -/
theorem spliceCleats_type (panelName : String) (pw ph : ℚ)
    (splices : List SplicePosition) (isSide : Bool) :
    ∀ c ∈ calculateSpliceCleats panelName pw ph splices isSide,
      c.type = CleatType.splice := by
  intro c hc
  unfold calculateSpliceCleats at hc
  rw [List.mem_map] at hc
  obtain ⟨p, _, hp⟩ := hc
  cases h : p.2.co <;> rw [h] at hp <;> exact hp ▸ rfl

open CleatCalculator in
/-- Every intermediate vertical cleat is vertical with the intermediate tag. -/
theorem interCleats_fields (panelName : String) (pw ph : ℚ) (isSide rot : Bool) :
    ∀ c ∈ calculateIntermediateVerticalCleats panelName pw ph isSide rot,
      c.co = Orient.vertical ∧ c.type = CleatType.intermediate := by
  intro c hc
  unfold calculateIntermediateVerticalCleats at hc
  by_cases h : 0 < minCleatsOf pw
  · rw [if_pos h, List.mem_map] at hc
    obtain ⟨i, _, hp⟩ := hc
    exact hp ▸ ⟨rfl, rfl⟩
  · rw [if_neg h] at hc
    exact absurd hc (List.not_mem_nil c)

open CleatCalculator in
/-- The intermediate vertical cleats are evenly spaced: each consecutive pair
of x positions differs by the even spacing. -/
theorem inter_x_chain (panelName : String) (pw ph : ℚ) (isSide rot : Bool) :
    List.Chain' (fun a b => b.x = a.x + interSpacing pw)
      (calculateIntermediateVerticalCleats panelName pw ph isSide rot) := by
  unfold calculateIntermediateVerticalCleats
  by_cases h : 0 < minCleatsOf pw
  · rw [if_pos h]
    rw [List.chain'_iff_get]
    intro i hi
    simp only [List.length_map, List.length_range] at hi
    simp only [List.get_eq_getElem, List.getElem_map, List.getElem_range]
    push_cast
    ring
  · rw [if_neg h]
    exact List.chain'_nil

open CleatCalculator in
/-- When no intermediate cleat is needed, the available width is at most the
24 inch maximum. -/
theorem no_inter_width_le (pw : ℚ) (h : ¬0 < minCleatsOf pw) :
    availableWidthOf pw ≤ MAX_CLEAT_SPACING := by
  unfold minCleatsOf at h
  push_neg at h
  have h1 : jsCeil (availableWidthOf pw / MAX_CLEAT_SPACING) ≤ 1 := by omega
  unfold jsCeil at h1
  rw [Int.ceil_le] at h1
  have h2 : availableWidthOf pw / MAX_CLEAT_SPACING ≤ 1 := by exact_mod_cast h1
  rw [div_le_one (by norm_num [MAX_CLEAT_SPACING])] at h2
  linarith [h2]

open CleatCalculator in
/-- When intermediate cleats are needed, the even spacing is at most the
24 inch maximum, and the available width is the full span of the gaps. -/
theorem inter_spacing_bounds (pw : ℚ) (h : 0 < minCleatsOf pw) :
    interSpacing pw ≤ MAX_CLEAT_SPACING ∧
    availableWidthOf pw = (((minCleatsOf pw).toNat : ℚ) + 1) * interSpacing pw := by
  have hK : ((minCleatsOf pw).toNat : ℤ) = minCleatsOf pw := Int.toNat_of_nonneg (by omega)
  have hKQ : (((minCleatsOf pw).toNat : ℚ)) = ((minCleatsOf pw : ℤ) : ℚ) := by
    rw [← hK]
    norm_cast
  have hKpos : (1 : ℚ) ≤ ((minCleatsOf pw).toNat : ℚ) := by
    have : 1 ≤ (minCleatsOf pw).toNat := by omega
    exact_mod_cast this
  have hne : (((minCleatsOf pw).toNat : ℚ) + 1) ≠ 0 := by linarith
  have hceil : jsCeil (availableWidthOf pw / MAX_CLEAT_SPACING) = minCleatsOf pw + 1 := by
    unfold minCleatsOf
    ring
  have hle : availableWidthOf pw / MAX_CLEAT_SPACING ≤ ((minCleatsOf pw : ℤ) : ℚ) + 1 := by
    have h1 : availableWidthOf pw / MAX_CLEAT_SPACING ≤
        ((jsCeil (availableWidthOf pw / MAX_CLEAT_SPACING) : ℤ) : ℚ) := by
      unfold jsCeil
      exact Int.le_ceil _
    rw [hceil] at h1
    push_cast at h1
    linarith
  have hM : (0 : ℚ) < MAX_CLEAT_SPACING := by norm_num [MAX_CLEAT_SPACING]
  have haw : availableWidthOf pw ≤ MAX_CLEAT_SPACING * (((minCleatsOf pw).toNat : ℚ) + 1) := by
    rw [div_le_iff₀ hM] at hle
    rw [hKQ]
    linarith
  have hpos : (0 : ℚ) < (((minCleatsOf pw).toNat : ℚ) + 1) := by linarith
  constructor
  · unfold interSpacing
    rw [← hKQ]
    rw [div_le_iff₀ hpos]
    linarith
  · unfold interSpacing
    rw [← hKQ]
    field_simp

open CleatCalculator in
/-- Walking the vertical members in x order (left edge member, intermediates,
right edge member), every clear gap between consecutive members is at most
the 24 inch maximum. -/
theorem inter_gap_chain (panelName : String) (pw ph : ℚ) (isSide rot : Bool) :
    List.Chain' (fun a b => b - (a + CLEAT_WIDTH) ≤ MAX_CLEAT_SPACING)
      (0 :: ((calculateIntermediateVerticalCleats panelName pw ph isSide rot).map
        (fun c => c.x) ++ [pw - CLEAT_WIDTH])) := by
  by_cases h : 0 < minCleatsOf pw
  · obtain ⟨hsp, hspan⟩ := inter_spacing_bounds pw h
    have hk1 : 1 ≤ (minCleatsOf pw).toNat := by omega
    obtain ⟨m, hm⟩ : ∃ m, (minCleatsOf pw).toNat = m + 1 :=
      ⟨(minCleatsOf pw).toNat - 1, by omega⟩
    have hmk : ((m : ℚ)) + 1 = (((minCleatsOf pw).toNat : ℚ)) := by
      rw [hm]
      push_cast
      ring
    unfold calculateIntermediateVerticalCleats
    rw [if_pos h]
    rw [List.map_map, hm]
    refine List.chain'_cons'.mpr ⟨?_, ?_⟩
    · intro b hb
      rw [List.range_succ_eq_map, List.map_cons, List.cons_append, List.head?_cons,
        Option.mem_some_iff] at hb
      rw [← hb]
      simp only [Function.comp]
      unfold CLEAT_WIDTH MAX_CLEAT_SPACING at *
      push_cast
      nlinarith [hsp, hspan]
    · refine (List.chain'_append).mpr ⟨?_, List.chain'_singleton _, ?_⟩
      · rw [List.chain'_iff_get]
        intro i hi
        simp only [List.length_map, List.length_range] at hi
        simp only [List.get_eq_getElem, List.getElem_map, List.getElem_range,
          Function.comp]
        unfold CLEAT_WIDTH MAX_CLEAT_SPACING at *
        push_cast
        nlinarith [hsp, hspan]
      · intro x hx y hy
        rw [List.range_succ, List.map_append, List.map_cons, List.map_nil,
          List.getLast?_concat, Option.mem_some_iff] at hx
        rw [List.head?_cons, Option.mem_some_iff] at hy
        rw [← hx, ← hy]
        simp only [Function.comp]
        have hgoal : (1.75 : ℚ) + ((m : ℚ) + 1) * interSpacing pw =
            CLEAT_WIDTH + ((m : ℚ) + 1) * interSpacing pw - CLEAT_WIDTH / 2 := by
          unfold CLEAT_WIDTH
          ring
        unfold availableWidthOf at hspan
        unfold CLEAT_WIDTH MAX_CLEAT_SPACING at *
        rw [hmk] at *
        nlinarith [hsp, hspan]
  · unfold calculateIntermediateVerticalCleats
    rw [if_neg h]
    rw [List.map_nil, List.nil_append]
    refine List.chain'_pair.mpr ?_
    have := no_inter_width_le pw h
    unfold availableWidthOf CLEAT_WIDTH MAX_CLEAT_SPACING at *
    linarith

open CleatCalculator in
/-- The intermediate cleats sit symmetrically between the two edge vertical
members: the clear gap from the left edge member to the first intermediate
equals the clear gap from the last intermediate to the right edge member. -/
theorem inter_symmetry (panelName : String) (pw ph : ℚ) (isSide rot : Bool) :
    ∀ c1 ∈ (calculateIntermediateVerticalCleats panelName pw ph isSide rot).head?,
    ∀ c2 ∈ (calculateIntermediateVerticalCleats panelName pw ph isSide rot).getLast?,
      c1.x - CLEAT_WIDTH = (pw - CLEAT_WIDTH) - (c2.x + CLEAT_WIDTH) := by
  by_cases h : 0 < minCleatsOf pw
  · obtain ⟨hsp, hspan⟩ := inter_spacing_bounds pw h
    have hk1 : 1 ≤ (minCleatsOf pw).toNat := by omega
    obtain ⟨m, hm⟩ : ∃ m, (minCleatsOf pw).toNat = m + 1 :=
      ⟨(minCleatsOf pw).toNat - 1, by omega⟩
    have hmk : ((m : ℚ)) + 1 = (((minCleatsOf pw).toNat : ℚ)) := by
      rw [hm]
      push_cast
      ring
    intro c1 hc1 c2 hc2
    unfold calculateIntermediateVerticalCleats at hc1 hc2
    rw [if_pos h, hm] at hc1 hc2
    rw [List.range_succ_eq_map, List.map_cons, List.head?_cons, Option.mem_some_iff] at hc1
    rw [List.range_succ, List.map_append, List.map_cons, List.map_nil,
      List.getLast?_concat, Option.mem_some_iff] at hc2
    rw [← hc1, ← hc2]
    dsimp only
    unfold availableWidthOf at hspan
    rw [← hmk] at hspan
    unfold CLEAT_WIDTH at *
    push_cast
    linarith [hspan]
  · intro c1 hc1
    unfold calculateIntermediateVerticalCleats at hc1
    rw [if_neg h] at hc1
    simp at hc1

open CleatCalculator in
/-- Claim C6: in every cleat layout of the five crate panels, the vertical
members are the two edge verticals at x = 0 and x = panelWidth - cleatWidth
together with the intermediate vertical cleats; the intermediates are evenly
spaced (consecutive x positions differ by the common spacing) and sit
symmetrically between the edge members; and walking the members in x order,
no clear gap between adjacent vertical members exceeds 24 inches. -/
theorem claim_C6 (panelName : String) (pw ph : ℚ) (splices : List SplicePosition)
    (rot : Bool)
    (hname : panelName ∈ ["FRONT_PANEL", "BACK_PANEL", "LEFT_END_PANEL",
      "RIGHT_END_PANEL", "TOP_PANEL"]) :
    ((calculateCleatLayout panelName pw ph splices rot).cleats.filter
        (fun c => decide (c.co = Orient.vertical) && decide (c.type ≠ CleatType.splice))).map
        (fun c => c.x) =
      0 :: (pw - CLEAT_WIDTH) ::
        (calculateIntermediateVerticalCleats panelName pw ph
          (jsIncludes panelName "LEFT_END" || jsIncludes panelName "RIGHT_END") rot).map
          (fun c => c.x) ∧
    List.Chain' (fun a b => b.x = a.x + interSpacing pw)
      (calculateIntermediateVerticalCleats panelName pw ph
        (jsIncludes panelName "LEFT_END" || jsIncludes panelName "RIGHT_END") rot) ∧
    List.Chain' (fun a b => b - (a + CLEAT_WIDTH) ≤ MAX_CLEAT_SPACING)
      (0 :: ((calculateIntermediateVerticalCleats panelName pw ph
        (jsIncludes panelName "LEFT_END" || jsIncludes panelName "RIGHT_END") rot).map
          (fun c => c.x) ++ [pw - CLEAT_WIDTH])) ∧
    (∀ c1 ∈ (calculateIntermediateVerticalCleats panelName pw ph
        (jsIncludes panelName "LEFT_END" || jsIncludes panelName "RIGHT_END") rot).head?,
     ∀ c2 ∈ (calculateIntermediateVerticalCleats panelName pw ph
        (jsIncludes panelName "LEFT_END" || jsIncludes panelName "RIGHT_END") rot).getLast?,
      c1.x - CLEAT_WIDTH = (pw - CLEAT_WIDTH) - (c2.x + CLEAT_WIDTH)) := by
  refine ⟨?_, inter_x_chain panelName pw ph _ rot, inter_gap_chain panelName pw ph _ rot,
    inter_symmetry panelName pw ph _ rot⟩
  have hI : ∀ isS : Bool,
      (calculateIntermediateVerticalCleats panelName pw ph isS rot).filter
        (fun c => decide (c.co = Orient.vertical) && decide (c.type ≠ CleatType.splice)) =
      calculateIntermediateVerticalCleats panelName pw ph isS rot := by
    intro isS
    refine List.filter_eq_self.mpr ?_
    intro c hc
    obtain ⟨h1, h2⟩ := interCleats_fields panelName pw ph isS rot c hc
    simp [h1, h2]
  have hS : ∀ isS : Bool,
      (calculateSpliceCleats panelName pw ph splices isS).filter
        (fun c => decide (c.co = Orient.vertical) && decide (c.type ≠ CleatType.splice)) =
      [] := by
    intro isS
    rw [List.filter_eq_nil_iff]
    intro c hc
    have := spliceCleats_type panelName pw ph splices isS c hc
    simp [this]
  rcases List.mem_cons.mp hname with rfl | hname
  · unfold calculateCleatLayout
    dsimp only
    rw [if_pos (by decide)]
    rw [List.filter_append, List.filter_append, hI, hS, List.append_nil]
    simp +decide [createPerimeterCleat, List.filter]
  rcases List.mem_cons.mp hname with rfl | hname
  · unfold calculateCleatLayout
    dsimp only
    rw [if_pos (by decide)]
    rw [List.filter_append, List.filter_append, hI, hS, List.append_nil]
    simp +decide [createPerimeterCleat, List.filter]
  rcases List.mem_cons.mp hname with rfl | hname
  · unfold calculateCleatLayout
    dsimp only
    rw [if_neg (by decide), if_pos (by decide)]
    rw [List.filter_append, List.filter_append, hI, hS, List.append_nil]
    simp +decide [createPerimeterCleat, List.filter]
  rcases List.mem_cons.mp hname with rfl | hname
  · unfold calculateCleatLayout
    dsimp only
    rw [if_neg (by decide), if_pos (by decide)]
    rw [List.filter_append, List.filter_append, hI, hS, List.append_nil]
    simp +decide [createPerimeterCleat, List.filter]
  rcases List.mem_cons.mp hname with rfl | hname
  · unfold calculateCleatLayout
    dsimp only
    rw [if_pos (by decide)]
    rw [List.filter_append, List.filter_append, hI, hS, List.append_nil]
    simp +decide [createPerimeterCleat, List.filter]
  exact absurd hname (List.not_mem_nil panelName)

open CleatCalculator in
/-- Witness for C6 on the front panel, 96 by 50 inches, no splices. -/
theorem claim_C6_witness :
    ((calculateCleatLayout "FRONT_PANEL" 96 50 [] false).cleats.filter
        (fun c => decide (c.co = Orient.vertical) && decide (c.type ≠ CleatType.splice))).map
        (fun c => c.x) =
      0 :: ((96 : ℚ) - CLEAT_WIDTH) ::
        (calculateIntermediateVerticalCleats "FRONT_PANEL" 96 50
          (jsIncludes "FRONT_PANEL" "LEFT_END" || jsIncludes "FRONT_PANEL" "RIGHT_END")
          false).map (fun c => c.x) ∧
    List.Chain' (fun a b => b.x = a.x + interSpacing 96)
      (calculateIntermediateVerticalCleats "FRONT_PANEL" 96 50
        (jsIncludes "FRONT_PANEL" "LEFT_END" || jsIncludes "FRONT_PANEL" "RIGHT_END") false) ∧
    List.Chain' (fun a b => b - (a + CLEAT_WIDTH) ≤ MAX_CLEAT_SPACING)
      (0 :: ((calculateIntermediateVerticalCleats "FRONT_PANEL" 96 50
        (jsIncludes "FRONT_PANEL" "LEFT_END" || jsIncludes "FRONT_PANEL" "RIGHT_END")
          false).map (fun c => c.x) ++ [(96 : ℚ) - CLEAT_WIDTH])) ∧
    (∀ c1 ∈ (calculateIntermediateVerticalCleats "FRONT_PANEL" 96 50
        (jsIncludes "FRONT_PANEL" "LEFT_END" || jsIncludes "FRONT_PANEL" "RIGHT_END")
          false).head?,
     ∀ c2 ∈ (calculateIntermediateVerticalCleats "FRONT_PANEL" 96 50
        (jsIncludes "FRONT_PANEL" "LEFT_END" || jsIncludes "FRONT_PANEL" "RIGHT_END")
          false).getLast?,
      c1.x - CLEAT_WIDTH = ((96 : ℚ) - CLEAT_WIDTH) - (c2.x + CLEAT_WIDTH)) :=
  claim_C6 "FRONT_PANEL" 96 50 [] false (by decide)

/-! ## Claim C8: floorboard lumber selection -/

theorem find?_min_of_sorted {α : Type} (wf : α → ℚ) (p : α → Bool) :
    ∀ (l : List α), l.Pairwise (fun a b => wf a ≤ wf b) →
    ∀ o, l.find? p = some o → ∀ o2 ∈ l, p o2 = true → wf o ≤ wf o2 := by
  intro l
  induction l with
  | nil => intro _ o ho; simp [List.find?] at ho
  | cons a t ih =>
      intro hp o ho o2 ho2 hpo2
      rcases hp with _ | ⟨ha, ht⟩
      rw [List.find?_cons] at ho
      rcases hpa : p a with _ | _
      · rw [hpa] at ho
        dsimp at ho
        rcases List.mem_cons.mp ho2 with h2 | h2
        · rw [h2] at hpo2
          rw [hpo2] at hpa
          exact absurd hpa (by simp)
        · exact ih ht o ho o2 h2 hpo2
      · rw [hpa] at ho
        dsimp at ho
        rw [Option.some_inj] at ho
        subst ho
        rcases List.mem_cons.mp ho2 with h2 | h2
        · rw [h2]
        · exact ha o2 h2

theorem getLastD_max_of_sorted {α : Type} (wf : α → ℚ) :
    ∀ (l : List α) (d : α), l ≠ [] → l.Pairwise (fun a b => wf a ≤ wf b) →
    l.getLastD d ∈ l ∧ ∀ o2 ∈ l, wf o2 ≤ wf (l.getLastD d) := by
  intro l
  induction l with
  | nil => intro d h; exact absurd rfl h
  | cons a t ih =>
      intro d _ hp
      rcases hp with _ | ⟨ha, ht⟩
      cases t with
      | nil =>
          refine ⟨by simp [List.getLastD], ?_⟩
          intro o2 ho2
          rw [List.mem_singleton.mp ho2]
          simp [List.getLastD]
      | cons b t2 =>
          obtain ⟨hmem, hmax⟩ := ih a (by simp) ht
          refine ⟨List.mem_cons_of_mem a hmem, ?_⟩
          intro o2 ho2
          rcases List.mem_cons.mp ho2 with h2 | h2
          · rw [h2]
            exact le_trans (ha _ hmem) (le_refl _)
          · exact hmax o2 h2

open NXGenerator in
/-- Claim C8: floorboard lumber selection returns the narrowest allowed lumber
whose weight rating covers the product weight and whose span rating covers the
internal length; when no allowed lumber qualifies it returns the widest
allowed lumber; and when the allowed set is empty it returns the default 2x6
(width 5.5, thickness 1.5) rather than failing. -/
theorem claim_C8 (cfg : CrateConfig) :
    (fbRatedOptions.filter (fun o =>
        (cfg.materials.availableLumber.getD defaultLumberList).contains o.nominal) = [] →
      getFloorboardDimensions cfg = { width := 5.5, thickness := 1.5, nominal := "2x6" }) ∧
    ((∃ o ∈ fbRatedOptions.filter (fun o =>
        (cfg.materials.availableLumber.getD defaultLumberList).contains o.nominal),
        (leOptQ cfg.product.weight o.maxWeight &&
         leOptQ (cfg.product.length + 2 * cfg.clearances.endc) o.maxSpan) = true) →
      ∃ o ∈ fbRatedOptions.filter (fun o =>
        (cfg.materials.availableLumber.getD defaultLumberList).contains o.nominal),
        (leOptQ cfg.product.weight o.maxWeight &&
         leOptQ (cfg.product.length + 2 * cfg.clearances.endc) o.maxSpan) = true ∧
        getFloorboardDimensions cfg =
          { width := o.width, thickness := o.thickness, nominal := o.nominal } ∧
        ∀ o2 ∈ fbRatedOptions.filter (fun o =>
          (cfg.materials.availableLumber.getD defaultLumberList).contains o.nominal),
          (leOptQ cfg.product.weight o2.maxWeight &&
           leOptQ (cfg.product.length + 2 * cfg.clearances.endc) o2.maxSpan) = true →
          o.width ≤ o2.width) ∧
    (fbRatedOptions.filter (fun o =>
        (cfg.materials.availableLumber.getD defaultLumberList).contains o.nominal) ≠ [] →
      (∀ o ∈ fbRatedOptions.filter (fun o =>
        (cfg.materials.availableLumber.getD defaultLumberList).contains o.nominal),
        (leOptQ cfg.product.weight o.maxWeight &&
         leOptQ (cfg.product.length + 2 * cfg.clearances.endc) o.maxSpan) = false) →
      ∃ o ∈ fbRatedOptions.filter (fun o =>
        (cfg.materials.availableLumber.getD defaultLumberList).contains o.nominal),
        getFloorboardDimensions cfg =
          { width := o.width, thickness := o.thickness, nominal := o.nominal } ∧
        ∀ o2 ∈ fbRatedOptions.filter (fun o =>
          (cfg.materials.availableLumber.getD defaultLumberList).contains o.nominal),
          o2.width ≤ o.width) := by
  have hsorted : (jsSortBy (fun a b => decide (a.width ≤ b.width))
      (fbRatedOptions.filter (fun o =>
        (cfg.materials.availableLumber.getD defaultLumberList).contains o.nominal))).Pairwise
      (fun a b => a.width ≤ b.width) := by
    have := pairwise_jsSortBy (fun (a b : LumberRated) => decide (a.width ≤ b.width))
      (fun a b => by
        rcases le_total a.width b.width with h | h
        · exact Or.inl (by simpa using h)
        · exact Or.inr (by simpa using h))
      (fun a b c hab hbc => by
        simp only [decide_eq_true_eq] at hab hbc ⊢
        exact le_trans hab hbc)
      (fbRatedOptions.filter (fun o =>
        (cfg.materials.availableLumber.getD defaultLumberList).contains o.nominal))
    exact this.imp (fun h => by simpa using h)
  refine ⟨?_, ?_, ?_⟩
  · intro hempty
    unfold getFloorboardDimensions
    rw [if_pos hempty]
  · intro hex
    by_cases hempty : fbRatedOptions.filter (fun o =>
        (cfg.materials.availableLumber.getD defaultLumberList).contains o.nominal) = []
    · obtain ⟨o, ho, _⟩ := hex
      rw [hempty] at ho
      exact absurd ho (List.not_mem_nil o)
    · have hex2 : ∃ o ∈ jsSortBy (fun a b => decide (a.width ≤ b.width))
          (fbRatedOptions.filter (fun o =>
            (cfg.materials.availableLumber.getD defaultLumberList).contains o.nominal)),
          (leOptQ cfg.product.weight o.maxWeight &&
           leOptQ (cfg.product.length + 2 * cfg.clearances.endc) o.maxSpan) = true := by
        obtain ⟨o, ho, hq⟩ := hex
        exact ⟨o, (mem_jsSortBy _ o _).mpr ho, hq⟩
      have hsome : ((jsSortBy (fun a b => decide (a.width ≤ b.width))
          (fbRatedOptions.filter (fun o =>
            (cfg.materials.availableLumber.getD defaultLumberList).contains o.nominal))).find?
          (fun o => leOptQ cfg.product.weight o.maxWeight &&
            leOptQ (cfg.product.length + 2 * cfg.clearances.endc) o.maxSpan)).isSome = true :=
        List.find?_isSome.mpr hex2
      rcases hfind : (jsSortBy (fun a b => decide (a.width ≤ b.width))
          (fbRatedOptions.filter (fun o =>
            (cfg.materials.availableLumber.getD defaultLumberList).contains o.nominal))).find?
          (fun o => leOptQ cfg.product.weight o.maxWeight &&
            leOptQ (cfg.product.length + 2 * cfg.clearances.endc) o.maxSpan) with _ | o
      · rw [hfind] at hsome
        simp at hsome
      · refine ⟨o, (mem_jsSortBy _ o _).mp (List.mem_of_find?_eq_some hfind), ?_, ?_, ?_⟩
        · exact @List.find?_some LumberRated
            (fun o => leOptQ cfg.product.weight o.maxWeight &&
              leOptQ (cfg.product.length + 2 * cfg.clearances.endc) o.maxSpan) o _ hfind
        · unfold getFloorboardDimensions
          rw [if_neg hempty]
          dsimp only
          rw [hfind]
        · intro o2 ho2 hq2
          exact find?_min_of_sorted (fun o => o.width) _ _ hsorted o hfind o2
            ((mem_jsSortBy _ o2 _).mpr ho2) hq2
  · intro hne hall
    have hnone : (jsSortBy (fun a b => decide (a.width ≤ b.width))
        (fbRatedOptions.filter (fun o =>
          (cfg.materials.availableLumber.getD defaultLumberList).contains o.nominal))).find?
        (fun o => leOptQ cfg.product.weight o.maxWeight &&
          leOptQ (cfg.product.length + 2 * cfg.clearances.endc) o.maxSpan) = none := by
      rw [List.find?_eq_none]
      intro o ho
      have := hall o ((mem_jsSortBy _ o _).mp ho)
      simp [this]
    have hsne : jsSortBy (fun a b => decide (a.width ≤ b.width))
        (fbRatedOptions.filter (fun o =>
          (cfg.materials.availableLumber.getD defaultLumberList).contains o.nominal)) ≠ [] := by
      intro hcon
      apply hne
      have := length_jsSortBy (fun (a b : LumberRated) => decide (a.width ≤ b.width))
        (fbRatedOptions.filter (fun o =>
          (cfg.materials.availableLumber.getD defaultLumberList).contains o.nominal))
      rw [hcon] at this
      exact List.eq_nil_of_length_eq_zero this.symm
    obtain ⟨hmem, hmax⟩ := getLastD_max_of_sorted (fun o => o.width) _
      { nominal := "2x6", width := 5.5, thickness := 1.5,
        maxWeight := some 2000, maxSpan := some 24 } hsne hsorted
    refine ⟨_, (mem_jsSortBy _ _ _).mp hmem, ?_, ?_⟩
    · unfold getFloorboardDimensions
      rw [if_neg hne]
      dsimp only
      rw [hnone]
    · intro o2 ho2
      exact hmax o2 ((mem_jsSortBy _ o2 _).mpr ho2)

/-- A configuration whose allowed floorboard lumber set is empty. -/
def cfgNoLumber : CrateConfig :=
  { product := { length := 40, width := 30, height := 50, weight := 800 }
    clearances := { side := 2, endc := 2, top := 3 }
    materials := { skidSize := "4x4", panelThickness := 0.75, cleatSize := "2x4",
                   allow3x4Lumber := none, availableLumber := some [] } }

open NXGenerator in
/-- Witness for C8: the empty allowed-lumber set falls back to the default
2x6 floorboard. -/
theorem claim_C8_witness :
    getFloorboardDimensions cfgNoLumber =
      { width := 5.5, thickness := 1.5, nominal := "2x6" } :=
  (claim_C8 cfgNoLumber).1 (by decide)

/-! ## Claim C5: floorboard gap consistency and non-overlap -/

open NXGenerator in
/-- The clamp pass establishes the gap condition from its running prev board. -/
theorem clampBoards_chain (gap : ℚ) :
    ∀ (l : List FloorBoard) (prev : FloorBoard),
      List.Chain (fun a b => a.position + a.width + gap ≤ b.position) prev
        (clampBoards gap prev l) := by
  intro l
  induction l with
  | nil => intro prev; exact List.Chain.nil
  | cons c rest ih =>
      intro prev
      unfold clampBoards
      dsimp only
      refine List.Chain.cons ?_ (ih _)
      by_cases h : c.position < prev.position + prev.width + gap
      · rw [if_pos h]
      · rw [if_neg h]
        push_neg at h
        exact h

open NXGenerator in
/-- The clamped layout is gap-consistent along adjacent pairs. -/
theorem clampLayout_chain (gap : ℚ) (l : List FloorBoard) :
    List.Chain' (fun a b => a.position + a.width + gap ≤ b.position)
      (clampLayout gap l) := by
  cases l with
  | nil => exact List.chain'_nil
  | cons b rest => exact clampBoards_chain gap rest b

open NXGenerator in
/-- Every board produced by the clamp pass keeps the width of some input
board. -/
theorem clampBoards_width (gap : ℚ) :
    ∀ (l : List FloorBoard) (prev : FloorBoard),
      ∀ b ∈ clampBoards gap prev l, ∃ a ∈ l, b.width = a.width := by
  intro l
  induction l with
  | nil => intro prev b hb; exact absurd hb (List.not_mem_nil b)
  | cons c rest ih =>
      intro prev b hb
      unfold clampBoards at hb
      dsimp only at hb
      rcases List.mem_cons.mp hb with h | h
      · refine ⟨c, List.mem_cons_self c rest, ?_⟩
        rw [h]
        by_cases hc : c.position < prev.position + prev.width + gap
        · rw [if_pos hc]
        · rw [if_neg hc]
      · obtain ⟨a, ha, hw⟩ := ih _ b h
        exact ⟨a, List.mem_cons_of_mem c ha, hw⟩

open NXGenerator in
/-- Every board produced by the symmetric re-ordering keeps the width of some
input board. -/
theorem symmetricPlace_width (gap : ℚ) :
    ∀ (l : List FloorBoard) (f bk : ℚ) (i : ℕ),
      ∀ b ∈ symmetricPlace gap l f bk i, ∃ a ∈ l, b.width = a.width := by
  intro l
  induction l with
  | nil => intro f bk i b hb; exact absurd hb (List.not_mem_nil b)
  | cons c rest ih =>
      intro f bk i b hb
      unfold symmetricPlace at hb
      by_cases h : i % 2 = 0
      · rw [if_pos h] at hb
        rcases List.mem_cons.mp hb with h2 | h2
        · exact ⟨c, List.mem_cons_self c rest, by rw [h2]⟩
        · obtain ⟨a, ha, hw⟩ := ih _ _ _ b h2
          exact ⟨a, List.mem_cons_of_mem c ha, hw⟩
      · rw [if_neg h] at hb
        rcases List.mem_cons.mp hb with h2 | h2
        · exact ⟨c, List.mem_cons_self c rest, by rw [h2]⟩
        · obtain ⟨a, ha, hw⟩ := ih _ _ _ b h2
          exact ⟨a, List.mem_cons_of_mem c ha, hw⟩

open NXGenerator in
/-- Every lumber option offered to the greedy fill has positive width. -/
theorem fbAvailableOptions_width_pos (avail : List String) :
    ∀ l ∈ fbAvailableOptions avail, 0 < l.width := by
  intro l hl
  unfold fbAvailableOptions at hl
  by_cases h : jsSortBy (fun a b => decide (b.width ≤ a.width))
      (fbLumberOptions.filter (fun o => avail.contains o.nominal)) = []
  · rw [if_pos h] at hl
    have heq := List.mem_singleton.mp hl
    rw [heq]
    norm_num
  · rw [if_neg h] at hl
    have := (mem_jsSortBy _ l _).mp hl
    have hmem := List.mem_of_mem_filter this
    unfold fbLumberOptions at hmem
    simp only [List.mem_cons, List.not_mem_nil, or_false] at hmem
    rcases hmem with h1 | h1 | h1 | h1 <;> rw [h1] <;> norm_num

open NXGenerator in
/-- Every board placed by the greedy fill has positive width. -/
theorem greedyFill_width_pos (options : List LumberOpt)
    (hopt : ∀ l ∈ options, 0 < l.width) :
    ∀ (fuel : ℕ) (rem pos : ℚ), ∀ b ∈ greedyFill options fuel rem pos, 0 < b.width := by
  intro fuel
  induction fuel with
  | zero => intro rem pos b hb; exact absurd hb (List.not_mem_nil b)
  | succ fuel ih =>
      intro rem pos b hb
      unfold greedyFill at hb
      by_cases h1 : (0.25 : ℚ) < rem
      · rw [if_pos h1] at hb
        rcases hfind : options.find? (fun l => decide (l.width + gapBetweenBoards ≤ rem))
          with _ | l
        · rw [hfind] at hb
          dsimp only at hb
          by_cases h2 : (0.25 : ℚ) ≤ rem
          · rw [if_pos h2] at hb
            by_cases h3 : (0.25 : ℚ) ≤
                (if gapBetweenBoards < rem then rem - gapBetweenBoards else rem)
            · rw [if_pos h3] at hb
              rcases List.mem_singleton.mp hb with rfl
              dsimp only
              linarith [h3]
            · rw [if_neg h3] at hb
              exact absurd hb (List.not_mem_nil b)
          · rw [if_neg h2] at hb
            exact absurd hb (List.not_mem_nil b)
        · rw [hfind] at hb
          dsimp only at hb
          rcases List.mem_cons.mp hb with h2 | h2
          · rw [h2]
            exact hopt l (List.mem_of_find?_eq_some hfind)
          · exact ih _ _ b h2
      · rw [if_neg h1] at hb
        exact absurd hb (List.not_mem_nil b)

open NXGenerator in
/-- Every board of the clamped list keeps the width of some input board. -/
theorem clampLayout_width (gap : ℚ) (l : List FloorBoard) :
    ∀ b ∈ clampLayout gap l, ∃ a ∈ l, b.width = a.width := by
  cases l with
  | nil => intro b hb; exact absurd hb (List.not_mem_nil b)
  | cons x rest =>
      intro b hb
      unfold clampLayout at hb
      rcases List.mem_cons.mp hb with h | h
      · exact ⟨x, List.mem_cons_self x rest, by rw [h]⟩
      · obtain ⟨a, ha, hw⟩ := clampBoards_width gap rest x b h
        exact ⟨a, List.mem_cons_of_mem x ha, hw⟩

open NXGenerator in
/-- Every board of the final floorboard layout has positive width. -/
theorem getFloorboardLayout_width_pos (cfg : CrateConfig) :
    ∀ b ∈ getFloorboardLayout cfg, 0 < b.width := by
  intro b hb
  unfold getFloorboardLayout at hb
  dsimp only at hb
  by_cases h : greedyFill
      (fbAvailableOptions (cfg.materials.availableLumber.getD defaultLumberList)) 40
      (cfg.product.length + 2 * cfg.clearances.endc) cfg.materials.panelThickness = []
  · rw [if_pos h] at hb
    exact absurd hb (List.not_mem_nil b)
  · rw [if_neg h] at hb
    obtain ⟨a1, ha1, hw1⟩ := clampLayout_width _ _ b hb
    have ha1b := (mem_jsSortBy _ a1 _).mp ha1
    obtain ⟨a2, ha2, hw2⟩ := symmetricPlace_width _ _ _ _ _ a1 ha1b
    have ha2b := (mem_jsSortBy _ a2 _).mp ha2
    have hpos := greedyFill_width_pos
      (fbAvailableOptions (cfg.materials.availableLumber.getD defaultLumberList))
      (fbAvailableOptions_width_pos _) 40 _ _ a2 ha2b
    rw [hw1, hw2]
    exact hpos

open NXGenerator in
/-- The gap-consistency chain can carry the positive-width fact along. -/
theorem chain_strengthen (gap : ℚ) :
    ∀ (L : List FloorBoard),
      List.Chain' (fun a b => a.position + a.width + gap ≤ b.position) L →
      (∀ b ∈ L, 0 < b.width) →
      List.Chain' (fun a b => (a.position + a.width + gap ≤ b.position) ∧ 0 < b.width) L := by
  intro L
  induction L with
  | nil => intro _ _; exact List.chain'_nil
  | cons a t ih =>
      intro h hw
      cases t with
      | nil => exact List.chain'_singleton a
      | cons b t2 =>
          rw [List.chain'_cons] at h ⊢
          refine ⟨⟨h.1, hw b (List.mem_cons_of_mem a (List.mem_cons_self b t2))⟩, ?_⟩
          exact ih h.2 (fun x hx => hw x (List.mem_cons_of_mem a hx))

open NXGenerator in
/-- Claim C5: the floorboard layout returned by the composer is
gap-consistent: along the returned order, each next board starts at or after
the previous board position plus its width plus the 1/8 inch gap; and
consequently no two boards of the layout overlap (every earlier board ends,
gap included, before every later board starts). -/
theorem claim_C5 (cfg : CrateConfig) :
    List.Chain' (fun a b => a.position + a.width + gapBetweenBoards ≤ b.position)
      (getFloorboardLayout cfg) ∧
    List.Pairwise (fun a b => a.position + a.width + gapBetweenBoards ≤ b.position)
      (getFloorboardLayout cfg) := by
  have hchain : List.Chain' (fun a b => a.position + a.width + gapBetweenBoards ≤ b.position)
      (getFloorboardLayout cfg) := by
    unfold getFloorboardLayout
    dsimp only
    by_cases h : greedyFill
        (fbAvailableOptions (cfg.materials.availableLumber.getD defaultLumberList)) 40
        (cfg.product.length + 2 * cfg.clearances.endc) cfg.materials.panelThickness = []
    · rw [if_pos h]
      exact List.chain'_nil
    · rw [if_neg h]
      exact clampLayout_chain gapBetweenBoards _
  have hw := getFloorboardLayout_width_pos cfg
  have hgap : (0 : ℚ) < gapBetweenBoards := by norm_num [gapBetweenBoards]
  haveI : IsTrans FloorBoard
      (fun a b => (a.position + a.width + gapBetweenBoards ≤ b.position) ∧ 0 < b.width) :=
    ⟨by
      intro a b c hab hbc
      obtain ⟨h1, hw1⟩ := hab
      obtain ⟨h2, hw2⟩ := hbc
      exact ⟨by linarith, hw2⟩⟩
  have hpair := List.chain'_iff_pairwise.mp (chain_strengthen gapBetweenBoards _ hchain hw)
  exact ⟨hchain, hpair.imp (fun h => h.1)⟩

/-! ## Claim C2: splice recording

The vertical-splice half of the claim holds by construction, but the
horizontal-splice half fails whenever the panel height is an exact multiple of
the sheet height: the guard for the bottom row demands a positive remainder,
and the guard for the other rows excludes row zero, so the boundary between
the two bottom rows is never recorded.  This contradicts the source comments
(a horizontal splice at the top of the bottom piece whenever a piece sits
above it), so the code, not the claim, is wrong. -/

open PlywoodSplicer in
/-- Claim C2, failing input: the 48 by 192 panel tiles into two stacked full
sheets (rows at y = 0 and y = 96), yet the layout records no splice at all —
in particular no horizontal splice at the row boundary y = 96. -/
theorem claim_C2_bug :
    (calculateSpliceLayout 48 192 "TOP_PANEL" false).sheets.length = 2 ∧
    ((calculateSpliceLayout 48 192 "TOP_PANEL" false).sheets.map (fun s => s.y)) =
      [0, 96] ∧
    (calculateSpliceLayout 48 192 "TOP_PANEL" false).splices = [] := by
  have hsw : sheetWidthOf false = 48 := by norm_num [sheetWidthOf, MAX_SHEET_WIDTH]
  have hsh : sheetHeightOf false = 96 := by norm_num [sheetHeightOf, MAX_SHEET_HEIGHT]
  have hH : hSections 48 48 = 1 := by
    unfold hSections
    rw [jsCeil_eq_of (48 / 48) 1 (by norm_num) (by norm_num)]
    rfl
  have hV : vSections 192 96 = 2 := by
    unfold vSections
    rw [jsCeil_eq_of (192 / 96) 2 (by norm_num) (by norm_num)]
    rfl
  have hr : jsMod 192 96 = 0 := by
    rw [jsMod_eq_of 192 96 2 (by norm_num) (by norm_num)]
    norm_num
  unfold calculateSpliceLayout
  dsimp only
  rw [hsw, hsh, hH, hV]
  norm_num [List.range_succ, splicesAt, sectionAt, sectionY, sectionHeight, hr]

/-! ## Expression-map lemmas for the composer steps -/

open NXGenerator in
/-- Setting a fresh key appends it. -/
theorem setExpr_fresh (m : List (String × ℚ)) (k : String) (v : ℚ)
    (h : m.any (fun p => p.1 == k) = false) :
    setExpr m k v = m ++ [(k, v)] := by
  unfold setExpr
  rw [if_neg (by rw [h]; exact Bool.false_ne_true)]

open NXGenerator in
/-- A sequence of sets of pairwise distinct keys, all fresh for the map,
appends the pairs in order. -/
theorem setExprs_fresh : ∀ (kvs m : List (String × ℚ)),
    (∀ p ∈ kvs, m.any (fun q => q.1 == p.1) = false) →
    ((kvs.map Prod.fst).Nodup) →
    setExprs m kvs = m ++ kvs := by
  intro kvs
  induction kvs with
  | nil => intro m _ _; simp [setExprs]
  | cons p t ih =>
      intro m hfresh hnodup
      have h1 : setExpr m p.1 p.2 = m ++ [p] :=
        setExpr_fresh m p.1 p.2 (hfresh p (List.mem_cons_self p t))
      have hstep : setExprs m (p :: t) = setExprs (setExpr m p.1 p.2) t := rfl
      rw [hstep, h1]
      rw [List.map_cons, List.nodup_cons] at hnodup
      have h2 : ∀ q ∈ t, (m ++ [p]).any (fun r => r.1 == q.1) = false := by
        intro q hq
        rw [List.any_append]
        have ha : m.any (fun r => r.1 == q.1) = false :=
          hfresh q (List.mem_cons_of_mem p hq)
        have hb : [p].any (fun r => r.1 == q.1) = false := by
          simp only [List.any_cons, List.any_nil, Bool.or_false]
          rw [beq_eq_false_iff_ne]
          intro hcon
          exact hnodup.1 (hcon ▸ List.mem_map_of_mem Prod.fst hq)
        rw [ha, hb]
        rfl
      rw [ih (m ++ [p]) h2 hnodup.2, List.append_assoc]
      rfl

open NXGenerator in
/-- Looking up a key untouched by a set leaves its value unchanged. -/
theorem lookup_setExpr_ne (m : List (String × ℚ)) (k k2 : String) (v : ℚ)
    (h : ¬ k = k2) :
    (setExpr m k2 v).lookup k = m.lookup k := by
  have hmap : ∀ (t : List (String × ℚ)),
      (t.map (fun p => if p.1 == k2 then (k2, v) else p)).lookup k = t.lookup k := by
    intro t
    induction t with
    | nil => rfl
    | cons p t2 ih =>
        rw [List.map_cons]
        by_cases hp : (p.1 == k2) = true
        · rw [if_pos hp]
          have hk : (k == k2) = false := beq_eq_false_iff_ne.mpr h
          have hkp : (k == p.1) = false := by
            rw [beq_eq_false_iff_ne]
            intro hcon
            exact h (hcon.trans (beq_iff_eq.mp hp))
          rw [List.lookup_cons, hk]
          rw [show List.lookup k (p :: t2) = List.lookup k t2 from by
            rw [List.lookup_cons, hkp]]
          exact ih
        · rw [if_neg hp]
          rw [List.lookup_cons]
          by_cases hk : (k == p.1) = true
          · rw [List.lookup_cons, hk]
          · rw [List.lookup_cons, eq_false_of_ne_true hk]
            exact ih
  have happ : ∀ (t : List (String × ℚ)),
      (t ++ [(k2, v)]).lookup k = t.lookup k := by
    intro t
    induction t with
    | nil =>
        rw [List.nil_append, List.lookup_cons, beq_eq_false_iff_ne.mpr h, List.lookup_nil]
    | cons p t2 ih =>
        rw [List.cons_append, List.lookup_cons]
        by_cases hk : (k == p.1) = true
        · rw [List.lookup_cons, hk]
        · rw [List.lookup_cons, eq_false_of_ne_true hk]
          exact ih
  unfold setExpr
  by_cases hc : m.any (fun p => p.1 == k2) = true
  · rw [if_pos hc]
    exact hmap m
  · rw [if_neg hc]
    exact happ m

open NXGenerator in
/-- Looking up a key untouched by a whole sequence of sets leaves its value
unchanged. -/
theorem lookup_setExprs_ne : ∀ (kvs m : List (String × ℚ)) (k : String),
    (∀ p ∈ kvs, ¬ k = p.1) →
    (setExprs m kvs).lookup k = m.lookup k := by
  intro kvs
  induction kvs with
  | nil => intro m k _; rfl
  | cons p t ih =>
      intro m k hk
      have hstep : setExprs m (p :: t) = setExprs (setExpr m p.1 p.2) t := rfl
      rw [hstep, ih _ k (fun q hq => hk q (List.mem_cons_of_mem p hq)),
        lookup_setExpr_ne m k p.1 p.2 (hk p (List.mem_cons_self p t))]

open PlywoodSplicer in
/-- The rotation-optimised layout keeps the requested panel name. -/
theorem opt_panelName (w h : ℚ) (n : String) (r : Bool) :
    (calculateOptimizedSpliceLayout w h n r).panelName = n := by
  unfold calculateOptimizedSpliceLayout
  dsimp only
  split_ifs <;> rfl

open PlywoodSplicer in
/-- The five panels produced by calculateCrateSplicing without a bottom
panel, in order. -/
theorem calcCrate_names (fbw fbh sw sh tw tl : ℚ) (ar : Bool) :
    (calculateCrateSplicing fbw fbh sw sh tw tl false ar).map
      (fun l => l.panelName) =
    ["FRONT_PANEL", "BACK_PANEL", "LEFT_END_PANEL", "RIGHT_END_PANEL", "TOP_PANEL"] := by
  unfold calculateCrateSplicing
  simp only [Bool.false_eq_true, if_false, List.append_nil, List.map_cons, List.map_nil]
  rw [opt_panelName, opt_panelName, opt_panelName, opt_panelName, opt_panelName]

open NXGenerator in
/-- The panel-splicing step does not disturb the value of any expression key
distinct from the per-panel and aggregate keys it writes. -/
theorem step2_lookup_preserved (cfg : CrateConfig) (s : GenState) (k : String)
    (hk1 : ¬ k = "total_plywood_sheets")
    (hk2 : ¬ k = "total_cleats")
    (hk3 : ¬ k = "plywood_efficiency")
    (hk4 : ¬ k = "plywood_waste_area")
    (hk5 : ¬ k = "cleat_linear_feet")
    (hk6 : ¬ k = "cleat_1x4_count")
    (hk7 : ∀ n ∈ ["FRONT_PANEL", "BACK_PANEL", "LEFT_END_PANEL",
        "RIGHT_END_PANEL", "TOP_PANEL"],
      ¬ k = jsToLower n ++ "_splice_count" ∧ ¬ k = jsToLower n ++ "_sheet_count" ∧
      ¬ k = jsToLower n ++ "_cleat_count") :
    (calcPanelSplicingStep cfg s).expressions.lookup k = s.expressions.lookup k := by
  unfold calcPanelSplicingStep
  dsimp only
  apply lookup_setExprs_ne
  intro p hp
  rw [List.mem_append] at hp
  rcases hp with hp | hp
  · unfold panelExprList at hp
    rw [List.mem_flatMap] at hp
    obtain ⟨q, hq, hpq⟩ := hp
    have hzip := List.of_mem_zip hq
    have hname1 : q.1.panelName ∈ ["FRONT_PANEL", "BACK_PANEL", "LEFT_END_PANEL",
        "RIGHT_END_PANEL", "TOP_PANEL"] := by
      rw [← calcCrate_names (exprGet s.expressions "internal_width" +
          2 * exprGet s.expressions "panel_thickness")
        (exprGet s.expressions "internal_height" +
          exprGet s.expressions "floorboard_thickness")
        (exprGet s.expressions "internal_length")
        (exprGet s.expressions "internal_height" +
          exprGet s.expressions "floorboard_thickness" +
          exprGet s.expressions "skid_height" - 2)
        (exprGet s.expressions "internal_width" +
          2 * exprGet s.expressions "panel_thickness")
        (exprGet s.expressions "internal_length" +
          2 * exprGet s.expressions "panel_thickness") true]
      exact List.mem_map_of_mem (fun l => l.panelName) hzip.1
    have hname2 : q.2.panelName ∈ ["FRONT_PANEL", "BACK_PANEL", "LEFT_END_PANEL",
        "RIGHT_END_PANEL", "TOP_PANEL"] := by
      have hq2 := hzip.2
      rw [List.mem_map] at hq2
      obtain ⟨l, hl, hl2⟩ := hq2
      have : q.2.panelName = l.panelName := by
        rw [← hl2]
        rfl
      rw [this]
      rw [← calcCrate_names (exprGet s.expressions "internal_width" +
          2 * exprGet s.expressions "panel_thickness")
        (exprGet s.expressions "internal_height" +
          exprGet s.expressions "floorboard_thickness")
        (exprGet s.expressions "internal_length")
        (exprGet s.expressions "internal_height" +
          exprGet s.expressions "floorboard_thickness" +
          exprGet s.expressions "skid_height" - 2)
        (exprGet s.expressions "internal_width" +
          2 * exprGet s.expressions "panel_thickness")
        (exprGet s.expressions "internal_length" +
          2 * exprGet s.expressions "panel_thickness") true]
      exact List.mem_map_of_mem (fun l => l.panelName) hl
    rcases List.mem_cons.mp hpq with h | h
    · rw [h]
      exact (hk7 q.1.panelName hname1).1
    rcases List.mem_cons.mp h with h | h
    · rw [h]
      exact (hk7 q.1.panelName hname1).2.1
    rcases List.mem_cons.mp h with h | h
    · rw [h]
      exact (hk7 q.2.panelName hname2).2.2
    · exact absurd h (List.not_mem_nil p)
  · rcases List.mem_cons.mp hp with h | h
    · rw [h]; exact hk1
    rcases List.mem_cons.mp h with h | h
    · rw [h]; exact hk2
    rcases List.mem_cons.mp h with h | h
    · rw [h]; exact hk3
    rcases List.mem_cons.mp h with h | h
    · rw [h]; exact hk4
    rcases List.mem_cons.mp h with h | h
    · rw [h]; exact hk5
    rcases List.mem_cons.mp h with h | h
    · rw [h]; exact hk6
    · exact absurd h (List.not_mem_nil p)

open NXGenerator in
/-- After the first phase of calculate, the internal_width expression holds
the product width plus twice the side clearance. -/
theorem step1_internal_width (cfg : CrateConfig) :
    exprGet (calcExpressionsStep cfg initState).expressions "internal_width" =
      cfg.product.width + 2 * cfg.clearances.side := by
  unfold calcExpressionsStep initState
  dsimp only
  rw [setExprs_fresh _ [] (fun p _ => rfl)
    (by simp only [List.map_cons, List.map_nil]; decide), List.nil_append]
  rfl

open NXGenerator in
/-- After the first phase of calculate, the internal_length expression holds
the product length plus twice the end clearance. -/
theorem step1_internal_length (cfg : CrateConfig) :
    exprGet (calcExpressionsStep cfg initState).expressions "internal_length" =
      cfg.product.length + 2 * cfg.clearances.endc := by
  unfold calcExpressionsStep initState
  dsimp only
  rw [setExprs_fresh _ [] (fun p _ => rfl)
    (by simp only [List.map_cons, List.map_nil]; decide), List.nil_append]
  rfl

open NXGenerator in
/-- The crate-cap step only appends boxes; expressions are untouched. -/
theorem cap_expressions (cfg : CrateConfig) (s : GenState) :
    (generateCrateCapStep cfg s).expressions = s.expressions := rfl

open NXGenerator in
/-- The shipping-base step only appends boxes; expressions are untouched. -/
theorem base_expressions (cfg : CrateConfig) (s : GenState) :
    (generateShippingBaseStep cfg s).expressions = s.expressions := rfl

set_option maxRecDepth 8192 in
set_option maxHeartbeats 1600000 in
open NXGenerator in
/-- The composed expression map holds internal_width = product width plus
twice the side clearance. -/
theorem composeState_lookup_iw (cfg : CrateConfig) :
    exprGet (composeState cfg).expressions "internal_width" =
      cfg.product.width + 2 * cfg.clearances.side := by
  have h1 := step2_lookup_preserved cfg (calcExpressionsStep cfg initState) "internal_width"
    (by decide) (by decide) (by decide) (by decide) (by decide) (by decide) (by decide)
  have h2 := step1_internal_width cfg
  unfold composeState
  rw [cap_expressions, base_expressions]
  unfold exprGet at h2 ⊢
  rw [h1]
  exact h2

set_option maxRecDepth 8192 in
set_option maxHeartbeats 1600000 in
open NXGenerator in
/-- The composed expression map holds internal_length = product length plus
twice the end clearance. -/
theorem composeState_lookup_il (cfg : CrateConfig) :
    exprGet (composeState cfg).expressions "internal_length" =
      cfg.product.length + 2 * cfg.clearances.endc := by
  have h1 := step2_lookup_preserved cfg (calcExpressionsStep cfg initState) "internal_length"
    (by decide) (by decide) (by decide) (by decide) (by decide) (by decide) (by decide)
  have h2 := step1_internal_length cfg
  unfold composeState
  rw [cap_expressions, base_expressions]
  unfold exprGet at h2 ⊢
  rw [h1]
  exact h2

/-- Scenario 1 of the specification: product 40 by 30 by 50 inches, 800
pounds, clearances side 2, end 2, top 3, panel thickness 0.75. -/
def scenarioOneConfig : CrateConfig :=
  { product := { length := 40, width := 30, height := 50, weight := 800 }
    clearances := { side := 2, endc := 2, top := 3 }
    materials := { skidSize := "4x4", panelThickness := 0.75, cleatSize := "2x4",
                   allow3x4Lumber := none, availableLumber := none } }

open NXGenerator in
/-- Claim C7 counterexample: on scenario 1 the composer records internal
length 44, not the 34 the claim states. -/
theorem claim_C7_cex :
    ¬ exprGet (composeState scenarioOneConfig).expressions "internal_length" = 34 := by
  rw [composeState_lookup_il scenarioOneConfig]
  norm_num [scenarioOneConfig]

open NXGenerator in
/-- Claim C7 as amended: on scenario 1 the composer produces internal width
34 and internal length 44 (product length 40 plus twice the end clearance 2),
and selects 4x4 nominal skids of height 3.5 and width 3.5 with table maximum
spacing 30. -/
theorem claim_C7 :
    exprGet (composeState scenarioOneConfig).expressions "internal_width" = 34 ∧
    exprGet (composeState scenarioOneConfig).expressions "internal_length" = 44 ∧
    getSkidDimensions scenarioOneConfig =
      { height := 3.5, width := 3.5, nominal := "4x4" } ∧
    (getSkidSpacing scenarioOneConfig).maxSpacing = 30 := by
  refine ⟨?_, ?_, ?_, ?_⟩
  · rw [composeState_lookup_iw scenarioOneConfig]
    norm_num [scenarioOneConfig]
  · rw [composeState_lookup_il scenarioOneConfig]
    norm_num [scenarioOneConfig]
  · norm_num [getSkidDimensions, scenarioOneConfig]
  · norm_num [getSkidSpacing, getSkidDimensions, scenarioOneConfig]

/-! ## Claim C10: six plywood boxes per panel -/

open NXGenerator in
/-- Characterisation of the generateCrateCap section loop when every section
of the panel produces a box: the final piece index caps at 6, piece names are
numbered consecutively, and every emitted box carries the panel name, the
plywood type, its piece index and the suppression flag of the source. -/
theorem plyLoop_spec (L : PanelSpliceLayout)
    (mkP : PlywoodSection → Option (Point3D × Point3D))
    (hmk : ∀ s, (mkP s).isSome = true) :
    ∀ (ss : List PlywoodSection) (i : ℕ), i ≤ 6 →
      (plyLoop L mkP ss i).2 = min 6 (i + ss.length) ∧
      ((plyLoop L mkP ss i).1).map (fun b => b.name) =
        (List.range (min 6 (i + ss.length) - i)).map
          (fun j => L.panelName ++ "_PLY_" ++ toString (i + j + 1)) ∧
      (∀ b ∈ (plyLoop L mkP ss i).1,
        b.panelName = some L.panelName ∧ b.type = BoxType.plywood ∧
        ∃ k, b.plywoodPieceIndex = some k ∧ i ≤ k ∧ k < min 6 (i + ss.length) ∧
          b.suppressed = some (decide (L.sheets.length ≤ k))) := by
  intro ss
  induction ss with
  | nil =>
      intro i h6
      unfold plyLoop
      have hmin : min 6 (i + ([] : List PlywoodSection).length) = i := by
        simp only [List.length_nil]
        omega
      rw [hmin]
      refine ⟨rfl, ?_, ?_⟩
      · rw [Nat.sub_self, List.range_zero, List.map_nil, List.map_nil]
      · intro b hb
        exact absurd hb (List.not_mem_nil b)
  | cons s rest ih =>
      intro i h6
      by_cases hi : 6 ≤ i
      · have hieq : i = 6 := by omega
        subst hieq
        unfold plyLoop
        rw [if_pos (le_refl 6)]
        have hmin : min 6 (6 + (s :: rest).length) = 6 := by omega
        rw [hmin]
        refine ⟨rfl, ?_, ?_⟩
        · rw [Nat.sub_self, List.range_zero, List.map_nil, List.map_nil]
        · intro b hb
          exact absurd hb (List.not_mem_nil b)
      · obtain ⟨pq, hpq⟩ := Option.isSome_iff_exists.mp (hmk s)
        have hstep : plyLoop L mkP (s :: rest) i =
            ({ name := L.panelName ++ "_PLY_" ++ toString (i + 1)
               point1 := pq.1
               point2 := pq.2
               color := plyColor i
               type := BoxType.plywood
               suppressed := some (decide (L.sheets.length ≤ i))
               plywoodPieceIndex := some i
               panelName := some L.panelName } :: (plyLoop L mkP rest (i + 1)).1,
             (plyLoop L mkP rest (i + 1)).2) := by
          simp only [plyLoop]
          rw [if_neg hi, hpq]
        obtain ⟨ih1, ih2, ih3⟩ := ih (i + 1) (by omega)
        have hlen : i + (s :: rest).length = i + 1 + rest.length := by
          simp only [List.length_cons]
          omega
        have hminsplit : min 6 (i + (s :: rest).length) - i =
            (min 6 (i + 1 + rest.length) - (i + 1)) + 1 := by
          simp only [List.length_cons]
          omega
        refine ⟨?_, ?_, ?_⟩
        · rw [hstep]
          dsimp only
          rw [ih1, hlen]
        · rw [hstep]
          dsimp only
          rw [List.map_cons, hminsplit, List.range_succ_eq_map, List.map_cons, List.map_map]
          refine congrArg₂ _ rfl ?_
          rw [ih2]
          refine List.map_congr_left ?_
          intro j hj
          simp only [Function.comp]
          refine congrArg _ ?_
          refine congrArg _ ?_
          omega
        · rw [hstep]
          intro b hb
          rcases List.mem_cons.mp hb with h2 | h2
          · rw [h2]
            refine ⟨rfl, rfl, i, rfl, le_refl i, ?_, rfl⟩
            simp only [List.length_cons]
            omega
          · obtain ⟨hp1, hp2, k, hk1, hk2, hk3, hk4⟩ := ih3 b h2
            refine ⟨hp1, hp2, k, hk1, by omega, ?_, hk4⟩
            simp only [List.length_cons]
            omega

open NXGenerator in
/-- For each of the five crate panels, every section produces a box (the
continue branch is never taken). -/
theorem mkPlyPoints_some (name : String)
    (hname : name ∈ ["FRONT_PANEL", "BACK_PANEL", "LEFT_END_PANEL",
      "RIGHT_END_PANEL", "TOP_PANEL"])
    (iw il ih pt skidH baseZ : ℚ) :
    ∀ s, (mkPlyPoints name iw il ih pt skidH baseZ s).isSome = true := by
  intro s
  unfold mkPlyPoints
  rcases List.mem_cons.mp hname with rfl | hname
  · rw [if_pos rfl]; rfl
  rcases List.mem_cons.mp hname with rfl | hname
  · rw [if_neg (by decide), if_pos rfl]; rfl
  rcases List.mem_cons.mp hname with rfl | hname
  · rw [if_neg (by decide), if_neg (by decide), if_pos rfl]; rfl
  rcases List.mem_cons.mp hname with rfl | hname
  · rw [if_neg (by decide), if_neg (by decide), if_neg (by decide), if_pos rfl]; rfl
  rcases List.mem_cons.mp hname with rfl | hname
  · rw [if_neg (by decide), if_neg (by decide), if_neg (by decide), if_neg (by decide),
      if_pos rfl]
    rfl
  · exact absurd hname (List.not_mem_nil name)

open NXGenerator in
/-- Characterisation of the placeholder fill loop. -/
theorem plyPlaceholders_spec (name : String) (i : ℕ) :
    (plyPlaceholders name i).map (fun b => b.name) =
      (List.range (6 - i)).map (fun j => name ++ "_PLY_" ++ toString (i + j + 1)) ∧
    ∀ b ∈ plyPlaceholders name i,
      b.panelName = some name ∧ b.type = BoxType.plywood ∧
      b.suppressed = some true ∧ b.point1 = b.point2 := by
  refine ⟨?_, ?_⟩
  · unfold plyPlaceholders
    rw [List.map_map]
    rfl
  · intro b hb
    unfold plyPlaceholders at hb
    rw [List.mem_map] at hb
    obtain ⟨j, _, hj⟩ := hb
    rw [← hj]
    exact ⟨rfl, rfl, rfl, rfl⟩

open NXGenerator in
/-- Characterisation of the plywood boxes emitted for one panel layout of a
recognised panel: exactly six boxes, named PLY_1 through PLY_6, all of
plywood type with the panel name; the active ones are the first
min 6 (number of sections) pieces, and every suppressed one is degenerate
(both corner points equal). -/
theorem plyBoxesFor_spec (iw il ih pt skidH baseZ : ℚ) (L : PanelSpliceLayout)
    (hname : L.panelName ∈ ["FRONT_PANEL", "BACK_PANEL", "LEFT_END_PANEL",
      "RIGHT_END_PANEL", "TOP_PANEL"]) :
    (plyBoxesFor iw il ih pt skidH baseZ L).length = 6 ∧
    (plyBoxesFor iw il ih pt skidH baseZ L).map (fun b => b.name) =
      (List.range 6).map (fun k => L.panelName ++ "_PLY_" ++ toString (k + 1)) ∧
    (∀ b ∈ plyBoxesFor iw il ih pt skidH baseZ L,
      b.panelName = some L.panelName ∧ b.type = BoxType.plywood) ∧
    ((plyBoxesFor iw il ih pt skidH baseZ L).filter
      (fun b => b.suppressed == some false)).length = min 6 L.sheets.length ∧
    (∀ b ∈ plyBoxesFor iw il ih pt skidH baseZ L,
      b.suppressed = some true → b.point1 = b.point2) := by
  obtain ⟨hfin, hnames, hmem⟩ := plyLoop_spec L
    (mkPlyPoints L.panelName iw il ih pt skidH baseZ)
    (mkPlyPoints_some L.panelName hname iw il ih pt skidH baseZ)
    L.sheets 0 (by omega)
  obtain ⟨hpnames, hpmem⟩ := plyPlaceholders_spec L.panelName
    (plyLoop L (mkPlyPoints L.panelName iw il ih pt skidH baseZ) L.sheets 0).2
  have hloopmem : ∀ b ∈ (plyLoop L (mkPlyPoints L.panelName iw il ih pt skidH baseZ)
      L.sheets 0).1, b.suppressed = some false := by
    intro b hb
    obtain ⟨_, _, k, _, _, hk3, hk4⟩ := hmem b hb
    rw [hk4]
    refine congrArg _ ?_
    refine decide_eq_false ?_
    omega
  have hlooplen : ((plyLoop L (mkPlyPoints L.panelName iw il ih pt skidH baseZ)
      L.sheets 0).1).length = min 6 L.sheets.length := by
    have := congrArg List.length hnames
    rw [List.length_map, List.length_map, List.length_range] at this
    rw [this]
    omega
  refine ⟨?_, ?_, ?_, ?_, ?_⟩
  · unfold plyBoxesFor
    dsimp only
    rw [List.length_append, hlooplen]
    unfold plyPlaceholders
    rw [List.length_map, List.length_range, hfin]
    omega
  · unfold plyBoxesFor
    dsimp only
    rw [List.map_append, hnames, hpnames, hfin]
    simp only [Nat.zero_add, Nat.sub_zero]
    have h6 : (6 : ℕ) = min 6 L.sheets.length + (6 - min 6 L.sheets.length) := by omega
    conv_rhs => rw [h6, List.range_add]
    rw [List.map_append, List.map_map]
    refine congrArg₂ _ ?_ ?_
    · refine List.map_congr_left ?_
      intro j _
      refine congrArg _ (congrArg _ ?_)
      omega
    · refine List.map_congr_left ?_
      intro j _
      simp only [Function.comp]
  · intro b hb
    unfold plyBoxesFor at hb
    dsimp only at hb
    rcases List.mem_append.mp hb with h | h
    · obtain ⟨h1, h2, _⟩ := hmem b h
      exact ⟨h1, h2⟩
    · obtain ⟨h1, h2, _, _⟩ := hpmem b h
      exact ⟨h1, h2⟩
  · unfold plyBoxesFor
    dsimp only
    rw [List.filter_append]
    rw [List.filter_eq_self.mpr (fun b hb => by rw [hloopmem b hb]; rfl)]
    rw [List.filter_eq_nil_iff.mpr (fun b hb => by
      rw [(hpmem b hb).2.2.1]
      simp)]
    rw [List.append_nil, hlooplen]
  · intro b hb
    unfold plyBoxesFor at hb
    dsimp only at hb
    rcases List.mem_append.mp hb with h | h
    · intro hsup
      rw [hloopmem b h] at hsup
      exact absurd (Option.some_inj.mp hsup) (by simp)
    · intro _
      exact (hpmem b h).2.2.2

open NXGenerator in
/-- Every box the section loop emits carries the panel name of its layout. -/
theorem plyLoop_basic (L : PanelSpliceLayout)
    (mkP : PlywoodSection → Option (Point3D × Point3D)) :
    ∀ (ss : List PlywoodSection) (i : ℕ),
      ∀ b ∈ (plyLoop L mkP ss i).1, b.panelName = some L.panelName := by
  intro ss
  induction ss with
  | nil =>
      intro i b hb
      exact absurd hb (List.not_mem_nil b)
  | cons s rest ih =>
      intro i b hb
      unfold plyLoop at hb
      by_cases hi : 6 ≤ i
      · rw [if_pos hi] at hb
        exact absurd hb (List.not_mem_nil b)
      · rw [if_neg hi] at hb
        rcases hpq : mkP s with _ | pq
        · rw [hpq] at hb
          exact ih i b hb
        · rw [hpq] at hb
          dsimp only at hb
          rcases List.mem_cons.mp hb with h | h
          · rw [h]
          · exact ih (i + 1) b h

open NXGenerator in
/-- Every plywood box for a layout carries that layout's panel name. -/
theorem plyBoxesFor_panelName (iw il ih pt sk bz : ℚ) (L : PanelSpliceLayout) :
    ∀ b ∈ plyBoxesFor iw il ih pt sk bz L, b.panelName = some L.panelName := by
  intro b hb
  unfold plyBoxesFor at hb
  dsimp only at hb
  rcases List.mem_append.mp hb with h | h
  · exact plyLoop_basic L _ L.sheets 0 b h
  · unfold plyPlaceholders at h
    rw [List.mem_map] at h
    obtain ⟨j, _, hj⟩ := h
    rw [← hj]

open NXGenerator in
/-- Filtering the plywood boxes of several panels by one panel name keeps
exactly that panel's boxes, provided panel names are pairwise distinct. -/
theorem filter_flatMap_layouts (iw il ih pt sk bz : ℚ) (name : String) :
    ∀ (LS : List PanelSpliceLayout) (L : PanelSpliceLayout), L ∈ LS →
      L.panelName = name →
      ((LS.map (fun l => l.panelName)).Nodup) →
      (LS.flatMap (plyBoxesFor iw il ih pt sk bz)).filter
        (fun b => b.panelName == some name) = plyBoxesFor iw il ih pt sk bz L := by
  intro LS
  induction LS with
  | nil =>
      intro L hL
      exact absurd hL (List.not_mem_nil L)
  | cons L0 rest ihr =>
      intro L hL hLname hnodup
      rw [List.map_cons, List.nodup_cons] at hnodup
      rw [List.flatMap_cons, List.filter_append]
      rcases List.mem_cons.mp hL with h | h
      · subst h
        rw [List.filter_eq_self.mpr (fun b hb => by
          rw [plyBoxesFor_panelName iw il ih pt sk bz L b hb, hLname]
          simp)]
        rw [List.filter_eq_nil_iff.mpr ?_, List.append_nil]
        intro b hb
        rw [List.mem_flatMap] at hb
        obtain ⟨L2, hL2, hb2⟩ := hb
        rw [plyBoxesFor_panelName iw il ih pt sk bz L2 b hb2]
        have hne : ¬ L2.panelName = name := by
          intro hcon
          apply hnodup.1
          rw [hLname, ← hcon]
          exact List.mem_map_of_mem (fun l => l.panelName) hL2
        simp [hne]
      · have hne : ¬ L0.panelName = name := by
          intro hcon
          apply hnodup.1
          rw [hcon, ← hLname]
          exact List.mem_map_of_mem (fun l => l.panelName) h
        rw [List.filter_eq_nil_iff.mpr (fun b hb => by
          rw [plyBoxesFor_panelName iw il ih pt sk bz L0 b hb]
          simp [hne]), List.nil_append]
        exact ihr L h hLname hnodup.2

open NXGenerator in
/-- The shipping-base step leaves the splice layouts untouched. -/
theorem base_layouts (cfg : CrateConfig) (s : GenState) :
    (generateShippingBaseStep cfg s).panelSpliceLayouts = s.panelSpliceLayouts := rfl

open NXGenerator in
/-- The crate-cap step leaves the splice layouts untouched. -/
theorem cap_layouts (cfg : CrateConfig) (s : GenState) :
    (generateCrateCapStep cfg s).panelSpliceLayouts = s.panelSpliceLayouts := rfl

open NXGenerator in
/-- Every box emitted by the shipping-base step (skids, floorboards and
floorboard placeholders) carries no panel name. -/
theorem base_boxes_panelName (cfg : CrateConfig) (s : GenState)
    (hpre : ∀ b ∈ s.boxes, b.panelName = none) :
    ∀ b ∈ (generateShippingBaseStep cfg s).boxes, b.panelName = none := by
  intro b hb
  unfold generateShippingBaseStep at hb
  dsimp only at hb
  rcases List.mem_append.mp hb with h | h
  · rcases List.mem_append.mp h with h2 | h2
    · rcases List.mem_append.mp h2 with h3 | h3
      · exact hpre b h3
      · rw [List.mem_map] at h3
        obtain ⟨p, _, hp⟩ := h3
        rw [← hp]
    · rw [List.mem_map] at h2
      obtain ⟨p, _, hp⟩ := h2
      rw [← hp]
  · rw [List.mem_map] at h
    obtain ⟨j, _, hj⟩ := h
    rw [← hj]

open NXGenerator in
/-- Filtering the composed boxes by a panel name whose layout is present and
unique keeps exactly the plywood boxes of that panel. -/
theorem cap_filter (cfg : CrateConfig) (s : GenState) (name : String)
    (hpre : ∀ b ∈ s.boxes, b.panelName = none)
    (L : PanelSpliceLayout) (hL : L ∈ s.panelSpliceLayouts) (hLname : L.panelName = name)
    (hnodup : (s.panelSpliceLayouts.map (fun l => l.panelName)).Nodup) :
    (generateCrateCapStep cfg s).boxes.filter (fun b => b.panelName == some name) =
      plyBoxesFor (exprGet s.expressions "internal_width")
        (exprGet s.expressions "internal_length")
        (exprGet s.expressions "internal_height")
        (exprGet s.expressions "panel_thickness")
        (exprGet s.expressions "skid_height")
        (exprGet s.expressions "skid_height" + exprGet s.expressions "floorboard_thickness")
        L := by
  unfold generateCrateCapStep
  dsimp only
  rw [List.filter_append, List.filter_append]
  rw [filter_flatMap_layouts _ _ _ _ _ _ name s.panelSpliceLayouts L hL hLname hnodup]
  rw [List.filter_eq_nil_iff.mpr (fun b hb => by
    rw [hpre b hb]
    simp)]
  rw [List.filter_eq_nil_iff.mpr (fun b hb => ?hcleat), List.nil_append, List.append_nil]
  case hcleat =>
    rw [List.mem_flatMap] at hb
    obtain ⟨cl, _, hb2⟩ := hb
    rw [List.mem_filterMap] at hb2
    obtain ⟨c, _, hc⟩ := hb2
    rw [Option.map_eq_some'] at hc
    obtain ⟨pq, _, hpq⟩ := hc
    rw [← hpq]
    simp

open NXGenerator in
/-- The splice layouts recorded by the panel-splicing step are the five crate
panels in order. -/
theorem step2_layout_names (cfg : CrateConfig) (s : GenState) :
    ((calcPanelSplicingStep cfg s).panelSpliceLayouts).map (fun l => l.panelName) =
    ["FRONT_PANEL", "BACK_PANEL", "LEFT_END_PANEL", "RIGHT_END_PANEL", "TOP_PANEL"] := by
  unfold calcPanelSplicingStep
  dsimp only
  exact calcCrate_names _ _ _ _ _ _ true

open NXGenerator in
/-- The state reaching the shipping-base step has no boxes yet. -/
theorem step12_boxes (cfg : CrateConfig) :
    (calcPanelSplicingStep cfg (calcExpressionsStep cfg initState)).boxes = [] := rfl

open NXGenerator in
/-- Claim C10: in every composed crate, each of the five panels contributes
exactly six plywood boxes, named PANEL_PLY_1 through PANEL_PLY_6; the active
(non-suppressed) ones are exactly min 6 (section count) pieces, so a layout
with fewer than six sections is padded with suppressed degenerate
placeholders (both corner points equal) and sections beyond the sixth
produce no box at all. -/
theorem claim_C10 (cfg : CrateConfig) (name : String)
    (hname : name ∈ ["FRONT_PANEL", "BACK_PANEL", "LEFT_END_PANEL",
      "RIGHT_END_PANEL", "TOP_PANEL"]) :
    ∃ L ∈ (composeState cfg).panelSpliceLayouts, L.panelName = name ∧
      ((composeState cfg).boxes.filter (fun b => b.panelName == some name)).length = 6 ∧
      ((composeState cfg).boxes.filter (fun b => b.panelName == some name)).map
        (fun b => b.name) =
        (List.range 6).map (fun k => name ++ "_PLY_" ++ toString (k + 1)) ∧
      (∀ b ∈ (composeState cfg).boxes.filter (fun b => b.panelName == some name),
        b.type = BoxType.plywood) ∧
      (((composeState cfg).boxes.filter (fun b => b.panelName == some name)).filter
        (fun b => b.suppressed == some false)).length = min 6 L.sheets.length ∧
      (∀ b ∈ (composeState cfg).boxes.filter (fun b => b.panelName == some name),
        b.suppressed = some true → b.point1 = b.point2) := by
  have hnames := step2_layout_names cfg (calcExpressionsStep cfg initState)
  have hnodup : (((calcPanelSplicingStep cfg (calcExpressionsStep cfg
      initState)).panelSpliceLayouts).map (fun l => l.panelName)).Nodup := by
    rw [hnames]
    decide
  have hname2 := hname
  rw [← hnames, List.mem_map] at hname2
  obtain ⟨L, hL, hLn⟩ := hname2
  have hpre : ∀ b ∈ (generateShippingBaseStep cfg (calcPanelSplicingStep cfg
      (calcExpressionsStep cfg initState))).boxes, b.panelName = none := by
    refine base_boxes_panelName cfg _ ?_
    rw [step12_boxes cfg]
    intro b hb
    exact absurd hb (List.not_mem_nil b)
  have hL3 : L ∈ (generateShippingBaseStep cfg (calcPanelSplicingStep cfg
      (calcExpressionsStep cfg initState))).panelSpliceLayouts := by
    rw [base_layouts]
    exact hL
  have hnodup3 : (((generateShippingBaseStep cfg (calcPanelSplicingStep cfg
      (calcExpressionsStep cfg initState))).panelSpliceLayouts).map
      (fun l => l.panelName)).Nodup := by
    rw [base_layouts]
    exact hnodup
  have hfilter := cap_filter cfg (generateShippingBaseStep cfg (calcPanelSplicingStep cfg
    (calcExpressionsStep cfg initState))) name hpre L hL3 hLn hnodup3
  have hspec := plyBoxesFor_spec
    (exprGet (generateShippingBaseStep cfg (calcPanelSplicingStep cfg
      (calcExpressionsStep cfg initState))).expressions "internal_width")
    (exprGet (generateShippingBaseStep cfg (calcPanelSplicingStep cfg
      (calcExpressionsStep cfg initState))).expressions "internal_length")
    (exprGet (generateShippingBaseStep cfg (calcPanelSplicingStep cfg
      (calcExpressionsStep cfg initState))).expressions "internal_height")
    (exprGet (generateShippingBaseStep cfg (calcPanelSplicingStep cfg
      (calcExpressionsStep cfg initState))).expressions "panel_thickness")
    (exprGet (generateShippingBaseStep cfg (calcPanelSplicingStep cfg
      (calcExpressionsStep cfg initState))).expressions "skid_height")
    (exprGet (generateShippingBaseStep cfg (calcPanelSplicingStep cfg
      (calcExpressionsStep cfg initState))).expressions "skid_height" +
     exprGet (generateShippingBaseStep cfg (calcPanelSplicingStep cfg
      (calcExpressionsStep cfg initState))).expressions "floorboard_thickness")
    L (by rw [hLn]; exact hname)
  obtain ⟨hs1, hs2, hs3, hs4, hs5⟩ := hspec
  refine ⟨L, ?_, hLn, ?_, ?_, ?_, ?_, ?_⟩
  · unfold composeState
    rw [cap_layouts, base_layouts]
    exact hL
  · unfold composeState
    rw [hfilter]
    exact hs1
  · unfold composeState
    rw [hfilter, hs2, hLn]
  · unfold composeState
    rw [hfilter]
    intro b hb
    exact (hs3 b hb).2
  · unfold composeState
    rw [hfilter]
    exact hs4
  · unfold composeState
    rw [hfilter]
    exact hs5

open NXGenerator in
/-- Claim C9: determinism — two runs of the composer on the same
configuration, in arbitrary (possibly different) environments of wall-clock
time and random streams, produce identical box lists and identical
expression maps: the geometry depends only on the configuration. -/
theorem claim_C9 (cfg : CrateConfig) (env1 env2 : Env) (s t : GenState)
    (h1 : Composes cfg env1 s) (h2 : Composes cfg env2 t) :
    s.boxes = t.boxes ∧ s.expressions = t.expressions := by
  cases h1 with
  | run a1 a2 a3 a4 ha1 ha2 ha3 ha4 =>
    cases h2 with
    | run b1 b2 b3 b4 hb1 hb2 hb3 hb4 =>
      subst ha4 ha3 ha2 ha1 hb4 hb3 hb2 hb1
      exact ⟨rfl, rfl⟩

open NXGenerator in
/-- Claim C9 witness: the scenario-one configuration composes in two runs at
different wall-clock times and different random streams, and the two runs
agree on boxes and expressions. -/
theorem claim_C9_witness :
    (composeState scenarioOneConfig).boxes = (composeState scenarioOneConfig).boxes ∧
    (composeState scenarioOneConfig).expressions =
      (composeState scenarioOneConfig).expressions :=
  claim_C9 scenarioOneConfig ⟨"2024-01-01T00:00:00Z", fun _ => 0⟩
    ⟨"2030-06-15T12:00:00Z", fun n => (n : ℚ)⟩
    (composeState scenarioOneConfig) (composeState scenarioOneConfig)
    (Composes.run _ _ _ _ rfl rfl rfl rfl)
    (Composes.run _ _ _ _ rfl rfl rfl rfl)

open NXGenerator in
/-- Claim C10 witness: instantiation at the scenario-one configuration and
the front panel. -/
theorem claim_C10_witness :
    ∃ L ∈ (composeState scenarioOneConfig).panelSpliceLayouts,
      L.panelName = "FRONT_PANEL" ∧
      ((composeState scenarioOneConfig).boxes.filter
        (fun b => b.panelName == some "FRONT_PANEL")).length = 6 ∧
      ((composeState scenarioOneConfig).boxes.filter
        (fun b => b.panelName == some "FRONT_PANEL")).map (fun b => b.name) =
        (List.range 6).map (fun k => "FRONT_PANEL" ++ "_PLY_" ++ toString (k + 1)) ∧
      (∀ b ∈ (composeState scenarioOneConfig).boxes.filter
          (fun b => b.panelName == some "FRONT_PANEL"), b.type = BoxType.plywood) ∧
      (((composeState scenarioOneConfig).boxes.filter
          (fun b => b.panelName == some "FRONT_PANEL")).filter
        (fun b => b.suppressed == some false)).length = min 6 L.sheets.length ∧
      (∀ b ∈ (composeState scenarioOneConfig).boxes.filter
          (fun b => b.panelName == some "FRONT_PANEL"),
        b.suppressed = some true → b.point1 = b.point2) :=
  claim_C10 scenarioOneConfig "FRONT_PANEL" (by decide)

/-! ## The plywood tiling: column and row boundary grids -/

namespace PlywoodSplicer

theorem jsMod_nonneg_of_pos (a b : ℚ) (hb : 0 < b) : 0 ≤ jsMod a b := by
  unfold jsMod
  have h1 : ((⌊a / b⌋ : ℤ) : ℚ) ≤ a / b := Int.floor_le _
  have h2 : b * (a / b) = a := by field_simp
  have h3 : b * ((⌊a / b⌋ : ℤ) : ℚ) ≤ b * (a / b) := by
    exact mul_le_mul_of_nonneg_left h1 hb.le
  rw [h2] at h3
  linarith

theorem jsMod_lt_of_pos (a b : ℚ) (hb : 0 < b) : jsMod a b < b := by
  unfold jsMod
  have h1 : a / b < ((⌊a / b⌋ : ℤ) : ℚ) + 1 := Int.lt_floor_add_one _
  have h2 : b * (a / b) = a := by field_simp
  have h3 : b * (a / b) < b * (((⌊a / b⌋ : ℤ) : ℚ) + 1) := by
    exact mul_lt_mul_of_pos_left h1 hb
  rw [h2, mul_add, mul_one] at h3
  linarith

theorem jsMod_sub_eq (a b : ℚ) : jsMod a b = a - b * ((⌊a / b⌋ : ℤ) : ℚ) := rfl

theorem cast_hSections (w sw : ℚ) (hw : 0 < w) (hsw : 0 < sw) :
    ((hSections w sw : ℕ) : ℤ) = ⌈w / sw⌉ := by
  unfold hSections jsCeil
  have h1 : (0 : ℤ) < ⌈w / sw⌉ := Int.ceil_pos.mpr (div_pos hw hsw)
  omega

theorem hSections_pos (w sw : ℚ) (hw : 0 < w) (hsw : 0 < sw) : 0 < hSections w sw := by
  unfold hSections jsCeil
  have h1 : (0 : ℤ) < ⌈w / sw⌉ := Int.ceil_pos.mpr (div_pos hw hsw)
  omega

theorem mul_lt_of_lt_hSections (w sw : ℚ) (k : ℕ) (hw : 0 < w) (hsw : 0 < sw)
    (hk : k < hSections w sw) : (k : ℚ) * sw < w := by
  have h1 : ((k : ℕ) : ℤ) < ⌈w / sw⌉ := by
    rw [← cast_hSections w sw hw hsw]
    exact_mod_cast hk
  have h2 : ((k : ℤ) : ℚ) < w / sw := Int.lt_ceil.mp h1
  have h3 : (k : ℚ) < w / sw := by exact_mod_cast h2
  exact (lt_div_iff₀ hsw).mp h3

theorem le_hSections_mul (w sw : ℚ) (hw : 0 < w) (hsw : 0 < sw) :
    w ≤ ((hSections w sw : ℕ) : ℚ) * sw := by
  have h1 : w / sw ≤ ((⌈w / sw⌉ : ℤ) : ℚ) := Int.le_ceil _
  have h2 : ((⌈w / sw⌉ : ℤ) : ℚ) = ((hSections w sw : ℕ) : ℚ) := by
    exact_mod_cast (cast_hSections w sw hw hsw).symm
  rw [h2] at h1
  exact (div_le_iff₀ hsw).mp h1

/-- The x coordinates of the column boundaries of the tiling: boundary i sits
at i sheet-widths, capped at the panel width. -/
def colBound (w sw : ℚ) (i : ℕ) : ℚ := min ((i : ℚ) * sw) w

theorem colBound_zero (w sw : ℚ) (hw : 0 ≤ w) : colBound w sw 0 = 0 := by
  simp [colBound, hw]

theorem colBound_eq_of_lt (w sw : ℚ) (k : ℕ) (hw : 0 < w) (hsw : 0 < sw)
    (hk : k < hSections w sw) : colBound w sw k = (k : ℚ) * sw :=
  min_eq_left (mul_lt_of_lt_hSections w sw k hw hsw hk).le

theorem colBound_top (w sw : ℚ) (hw : 0 < w) (hsw : 0 < sw) :
    colBound w sw (hSections w sw) = w :=
  min_eq_right (le_hSections_mul w sw hw hsw)

theorem colBound_mono (w sw : ℚ) (hsw : 0 ≤ sw) : Monotone (colBound w sw) := by
  intro i j hij
  exact min_le_min (mul_le_mul_of_nonneg_right (by exact_mod_cast hij) hsw) le_rfl

theorem colBound_width (w sw : ℚ) (k : ℕ) (hw : 0 < w) (hsw : 0 < sw)
    (hk : k < hSections w sw) :
    min sw (w - (k : ℚ) * sw) = colBound w sw (k + 1) - colBound w sw k := by
  rw [colBound_eq_of_lt w sw k hw hsw hk, colBound, ← min_sub_sub_right]
  congr 1
  push_cast
  ring

theorem colBound_lt_succ (w sw : ℚ) (k : ℕ) (hw : 0 < w) (hsw : 0 < sw)
    (hk : k < hSections w sw) : colBound w sw k < colBound w sw (k + 1) := by
  rw [colBound_eq_of_lt w sw k hw hsw hk]
  refine lt_min ?_ (mul_lt_of_lt_hSections w sw k hw hsw hk)
  have : (k : ℚ) < ((k + 1 : ℕ) : ℚ) := by exact_mod_cast Nat.lt_succ_self k
  nlinarith

theorem colBound_cover (w sw : ℚ) (px : ℚ) (hw : 0 < w) (hsw : 0 < sw)
    (h0 : 0 ≤ px) (h1 : px < w) :
    ∃ k < hSections w sw, colBound w sw k ≤ px ∧ px < colBound w sw (k + 1) := by
  have hm0 : (0 : ℤ) ≤ ⌊px / sw⌋ := Int.floor_nonneg.mpr (div_nonneg h0 hsw.le)
  have hcast : (((⌊px / sw⌋).toNat : ℕ) : ℚ) = ((⌊px / sw⌋ : ℤ) : ℚ) := by
    exact_mod_cast Int.toNat_of_nonneg hm0
  have hlow : ((⌊px / sw⌋ : ℤ) : ℚ) * sw ≤ px := by
    have h2 := Int.floor_le (px / sw)
    exact (le_div_iff₀ hsw).mp h2
  have hhigh : px < (((⌊px / sw⌋ : ℤ) : ℚ) + 1) * sw := by
    have h2 : px / sw < ((⌊px / sw⌋ : ℤ) : ℚ) + 1 := by
      exact_mod_cast Int.lt_floor_add_one (px / sw)
    exact (div_lt_iff₀ hsw).mp h2
  refine ⟨(⌊px / sw⌋).toNat, ?_, ?_, ?_⟩
  · have hq : ((⌊px / sw⌋ : ℤ) : ℚ) < w / sw :=
      (lt_div_iff₀ hsw).mpr (lt_of_le_of_lt hlow h1)
    have hz : ⌊px / sw⌋ < ⌈w / sw⌉ := Int.lt_ceil.mpr hq
    have hH := cast_hSections w sw hw hsw
    omega
  · calc colBound w sw (⌊px / sw⌋).toNat
        ≤ (((⌊px / sw⌋).toNat : ℕ) : ℚ) * sw := min_le_left _ _
    _ = ((⌊px / sw⌋ : ℤ) : ℚ) * sw := by rw [hcast]
    _ ≤ px := hlow
  · have hc2 : ((((⌊px / sw⌋).toNat + 1 : ℕ)) : ℚ) * sw =
        (((⌊px / sw⌋ : ℤ) : ℚ) + 1) * sw := by
      push_cast
      rw [hcast]
    unfold colBound
    rw [hc2]
    exact lt_min hhigh h1

theorem cast_vSections (h sh : ℚ) (hh : 0 < h) (hsh : 0 < sh) :
    ((vSections h sh : ℕ) : ℤ) = ⌈h / sh⌉ := by
  unfold vSections jsCeil
  have h1 : (0 : ℤ) < ⌈h / sh⌉ := Int.ceil_pos.mpr (div_pos hh hsh)
  omega

theorem vSections_pos (h sh : ℚ) (hh : 0 < h) (hsh : 0 < sh) : 0 < vSections h sh := by
  unfold vSections jsCeil
  have h1 : (0 : ℤ) < ⌈h / sh⌉ := Int.ceil_pos.mpr (div_pos hh hsh)
  omega

theorem vSections_of_mod_pos (h sh : ℚ) (hh : 0 < h) (hsh : 0 < sh)
    (hr : 0 < jsMod h sh) : ((vSections h sh : ℕ) : ℤ) = ⌊h / sh⌋ + 1 := by
  have h1 : ⌈h / sh⌉ ≤ ⌊h / sh⌋ + 1 := Int.ceil_le_floor_add_one _
  have h2 : ⌊h / sh⌋ + 1 ≤ ⌈h / sh⌉ := by
    by_contra hcon
    push_neg at hcon
    have h3 : ⌈h / sh⌉ ≤ ⌊h / sh⌋ := by omega
    have h4 : h / sh ≤ ((⌊h / sh⌋ : ℤ) : ℚ) := by
      calc h / sh ≤ ((⌈h / sh⌉ : ℤ) : ℚ) := Int.le_ceil _
      _ ≤ ((⌊h / sh⌋ : ℤ) : ℚ) := by exact_mod_cast h3
    have h5 : ((⌊h / sh⌋ : ℤ) : ℚ) = h / sh := le_antisymm (Int.floor_le _) h4
    have h6 : jsMod h sh = 0 := by
      rw [jsMod_sub_eq, h5]
      field_simp
    rw [h6] at hr
    exact lt_irrefl 0 hr
  rw [cast_vSections h sh hh hsh]
  omega

theorem eq_mul_floor_of_mod_eq_zero (h sh : ℚ) (hr : jsMod h sh = 0) :
    h = sh * ((⌊h / sh⌋ : ℤ) : ℚ) := by
  have h1 := jsMod_sub_eq h sh
  rw [hr] at h1
  linarith

theorem vSections_of_mod_eq_zero (h sh : ℚ) (hh : 0 < h) (hsh : 0 < sh)
    (hr : jsMod h sh = 0) : ((vSections h sh : ℕ) : ℤ) = ⌊h / sh⌋ := by
  have h1 := eq_mul_floor_of_mod_eq_zero h sh hr
  have h2 : h / sh = ((⌊h / sh⌋ : ℤ) : ℚ) := by
    rw [div_eq_iff hsh.ne']
    linear_combination h1
  rw [cast_vSections h sh hh hsh]
  conv_lhs => rw [h2]
  exact Int.ceil_intCast _

theorem sectionY_zero (h sh : ℚ) (hsh : 0 < sh) : sectionY h sh 0 = 0 := by
  unfold sectionY
  by_cases hr : 0 < jsMod h sh
  · simp [hr]
  · have h0 : jsMod h sh = 0 :=
      le_antisymm (not_lt.mp hr) (jsMod_nonneg_of_pos h sh hsh)
    simp [h0]

theorem sectionY_succ_of_mod_pos (h sh : ℚ) (v : ℕ) (hr : 0 < jsMod h sh) :
    sectionY h sh (v + 1) = jsMod h sh + (v : ℚ) * sh := by
  unfold sectionY
  dsimp only
  rw [if_neg (by simp), if_pos hr]
  push_cast
  ring

theorem sectionY_of_mod_eq_zero (h sh : ℚ) (v : ℕ) (hr : jsMod h sh = 0) :
    sectionY h sh v = (v : ℚ) * sh := by
  unfold sectionY
  dsimp only
  rw [hr]
  simp

theorem sectionY_lt (h sh : ℚ) (v : ℕ) (hh : 0 < h) (hsh : 0 < sh)
    (hv : v < vSections h sh) : sectionY h sh v < h := by
  by_cases hr : 0 < jsMod h sh
  · cases v with
    | zero => rw [sectionY_zero h sh hsh]; exact hh
    | succ u =>
      rw [sectionY_succ_of_mod_pos h sh u hr]
      have hVint := vSections_of_mod_pos h sh hh hsh hr
      have hui : ((u : ℕ) : ℤ) ≤ ⌊h / sh⌋ - 1 := by
        have h2 : ((u + 1 : ℕ) : ℤ) < ((vSections h sh : ℕ) : ℤ) := by exact_mod_cast hv
        omega
      have huq : ((u : ℕ) : ℚ) ≤ ((⌊h / sh⌋ : ℤ) : ℚ) - 1 := by exact_mod_cast hui
      have hmod := jsMod_sub_eq h sh
      nlinarith [mul_le_mul_of_nonneg_right huq hsh.le]
  · have h0 : jsMod h sh = 0 :=
      le_antisymm (not_lt.mp hr) (jsMod_nonneg_of_pos h sh hsh)
    rw [sectionY_of_mod_eq_zero h sh v h0]
    have hVint := vSections_of_mod_eq_zero h sh hh hsh h0
    have hvi : ((v : ℕ) : ℤ) ≤ ⌊h / sh⌋ - 1 := by
      have h2 : ((v : ℕ) : ℤ) < ((vSections h sh : ℕ) : ℤ) := by exact_mod_cast hv
      omega
    have hvq : ((v : ℕ) : ℚ) ≤ ((⌊h / sh⌋ : ℤ) : ℚ) - 1 := by exact_mod_cast hvi
    have heq := eq_mul_floor_of_mod_eq_zero h sh h0
    nlinarith [mul_le_mul_of_nonneg_right hvq hsh.le]

theorem sectionY_lt_succ (h sh : ℚ) (v : ℕ) (hsh : 0 < sh) :
    sectionY h sh v < sectionY h sh (v + 1) := by
  by_cases hr : 0 < jsMod h sh
  · cases v with
    | zero =>
      rw [sectionY_zero h sh hsh, sectionY_succ_of_mod_pos h sh 0 hr]
      push_cast
      linarith
    | succ u =>
      rw [sectionY_succ_of_mod_pos h sh u hr, sectionY_succ_of_mod_pos h sh (u + 1) hr]
      push_cast
      nlinarith
  · have h0 : jsMod h sh = 0 :=
      le_antisymm (not_lt.mp hr) (jsMod_nonneg_of_pos h sh hsh)
    rw [sectionY_of_mod_eq_zero h sh v h0, sectionY_of_mod_eq_zero h sh (v + 1) h0]
    push_cast
    nlinarith

/-- The y coordinates of the row boundaries of the tiling: boundary v sits at
the start of row v, capped at the panel height. -/
def rowBound (h sh : ℚ) (v : ℕ) : ℚ := min (sectionY h sh v) h

theorem rowBound_zero (h sh : ℚ) (hh : 0 ≤ h) (hsh : 0 < sh) : rowBound h sh 0 = 0 := by
  unfold rowBound
  rw [sectionY_zero h sh hsh]
  exact min_eq_left hh

theorem rowBound_eq_of_lt (h sh : ℚ) (v : ℕ) (hh : 0 < h) (hsh : 0 < sh)
    (hv : v < vSections h sh) : rowBound h sh v = sectionY h sh v :=
  min_eq_left (sectionY_lt h sh v hh hsh hv).le

theorem rowBound_top (h sh : ℚ) (hh : 0 < h) (hsh : 0 < sh) :
    rowBound h sh (vSections h sh) = h := by
  apply min_eq_right
  by_cases hr : 0 < jsMod h sh
  · have hVint := vSections_of_mod_pos h sh hh hsh hr
    have hf0 : (0 : ℤ) ≤ ⌊h / sh⌋ := Int.floor_nonneg.mpr (div_pos hh hsh).le
    obtain ⟨u, hu⟩ : ∃ u, vSections h sh = u + 1 := ⟨vSections h sh - 1, by omega⟩
    rw [hu, sectionY_succ_of_mod_pos h sh u hr]
    have huF : ((u : ℕ) : ℚ) = ((⌊h / sh⌋ : ℤ) : ℚ) := by
      have h2 : ((u : ℕ) : ℤ) = ⌊h / sh⌋ := by
        rw [hu] at hVint
        push_cast at hVint
        omega
      exact_mod_cast h2
    rw [huF, jsMod_sub_eq]
    nlinarith
  · have h0 : jsMod h sh = 0 :=
      le_antisymm (not_lt.mp hr) (jsMod_nonneg_of_pos h sh hsh)
    rw [sectionY_of_mod_eq_zero h sh _ h0]
    have hVint := vSections_of_mod_eq_zero h sh hh hsh h0
    have heq := eq_mul_floor_of_mod_eq_zero h sh h0
    have hVq : ((vSections h sh : ℕ) : ℚ) = ((⌊h / sh⌋ : ℤ) : ℚ) := by exact_mod_cast hVint
    rw [hVq]
    nlinarith

theorem rowBound_height (h sh : ℚ) (v : ℕ) (hh : 0 < h) (hsh : 0 < sh)
    (hv : v < vSections h sh) :
    sectionHeight h sh v = rowBound h sh (v + 1) - rowBound h sh v := by
  rw [rowBound_eq_of_lt h sh v hh hsh hv]
  by_cases hr : 0 < jsMod h sh
  · cases v with
    | zero =>
      have hsec : sectionHeight h sh 0 = jsMod h sh := by
        unfold sectionHeight
        dsimp only
        rw [if_pos ⟨rfl, hr⟩]
      have hs1 : sectionY h sh 1 = jsMod h sh := by
        rw [sectionY_succ_of_mod_pos h sh 0 hr]
        push_cast
        ring
      have hr0h : jsMod h sh ≤ h := by
        have hf0 : (0 : ℚ) ≤ ((⌊h / sh⌋ : ℤ) : ℚ) := by
          exact_mod_cast Int.floor_nonneg.mpr (div_pos hh hsh).le
        rw [jsMod_sub_eq]
        nlinarith
      rw [hsec, sectionY_zero h sh hsh]
      unfold rowBound
      rw [show (0 : ℕ) + 1 = 1 from rfl, hs1, min_eq_left hr0h, sub_zero]
    | succ u =>
      have hsec : sectionHeight h sh (u + 1) = min sh (h - sectionY h sh (u + 1)) := by
        unfold sectionHeight
        dsimp only
        rw [if_neg (by simp)]
      rw [hsec]
      have hs2 : sectionY h sh (u + 1 + 1) = sectionY h sh (u + 1) + sh := by
        rw [sectionY_succ_of_mod_pos h sh (u + 1) hr, sectionY_succ_of_mod_pos h sh u hr]
        push_cast
        ring
      unfold rowBound
      rw [hs2, ← min_sub_sub_right]
      congr 1
      ring
  · have h0 : jsMod h sh = 0 :=
      le_antisymm (not_lt.mp hr) (jsMod_nonneg_of_pos h sh hsh)
    have hsec : sectionHeight h sh v = min sh (h - sectionY h sh v) := by
      unfold sectionHeight
      dsimp only
      rw [if_neg (by rw [h0]; simp)]
    rw [hsec]
    have hs2 : sectionY h sh (v + 1) = sectionY h sh v + sh := by
      rw [sectionY_of_mod_eq_zero h sh (v + 1) h0, sectionY_of_mod_eq_zero h sh v h0]
      push_cast
      ring
    unfold rowBound
    rw [hs2, ← min_sub_sub_right]
    congr 1
    ring

theorem rowBound_lt_succ (h sh : ℚ) (v : ℕ) (hh : 0 < h) (hsh : 0 < sh)
    (hv : v < vSections h sh) : rowBound h sh v < rowBound h sh (v + 1) := by
  rw [rowBound_eq_of_lt h sh v hh hsh hv]
  unfold rowBound
  exact lt_min (sectionY_lt_succ h sh v hsh) (sectionY_lt h sh v hh hsh hv)

theorem rowBound_mono (h sh : ℚ) (hsh : 0 < sh) : Monotone (rowBound h sh) := by
  apply monotone_nat_of_le_succ
  intro v
  exact min_le_min (sectionY_lt_succ h sh v hsh).le le_rfl

theorem rowBound_cover (h sh : ℚ) (py : ℚ) (hh : 0 < h) (hsh : 0 < sh)
    (h0 : 0 ≤ py) (h1 : py < h) :
    ∃ v < vSections h sh, rowBound h sh v ≤ py ∧ py < rowBound h sh (v + 1) := by
  by_cases hr : 0 < jsMod h sh
  · by_cases hpy : py < jsMod h sh
    · refine ⟨0, ?_, ?_, ?_⟩
      · exact vSections_pos h sh hh hsh
      · rw [rowBound_zero h sh hh.le hsh]
        exact h0
      · show py < rowBound h sh 1
        have hs1 : sectionY h sh 1 = jsMod h sh := by
          rw [sectionY_succ_of_mod_pos h sh 0 hr]
          push_cast
          ring
        unfold rowBound
        rw [hs1]
        exact lt_min hpy h1
    · push_neg at hpy
      have hm0 : (0 : ℤ) ≤ ⌊(py - jsMod h sh) / sh⌋ :=
        Int.floor_nonneg.mpr (div_nonneg (by linarith) hsh.le)
      have hcast : (((⌊(py - jsMod h sh) / sh⌋).toNat : ℕ) : ℚ) =
          ((⌊(py - jsMod h sh) / sh⌋ : ℤ) : ℚ) := by
        exact_mod_cast Int.toNat_of_nonneg hm0
      have hlow : ((⌊(py - jsMod h sh) / sh⌋ : ℤ) : ℚ) * sh ≤ py - jsMod h sh :=
        (le_div_iff₀ hsh).mp (Int.floor_le _)
      have hhigh : py - jsMod h sh < (((⌊(py - jsMod h sh) / sh⌋ : ℤ) : ℚ) + 1) * sh := by
        have h2 : (py - jsMod h sh) / sh < ((⌊(py - jsMod h sh) / sh⌋ : ℤ) : ℚ) + 1 :=
          Int.lt_floor_add_one ((py - jsMod h sh) / sh)
        exact (div_lt_iff₀ hsh).mp h2
      have hmF : ⌊(py - jsMod h sh) / sh⌋ < ⌊h / sh⌋ := by
        have hmod := jsMod_sub_eq h sh
        have hq : ((⌊(py - jsMod h sh) / sh⌋ : ℤ) : ℚ) * sh <
            ((⌊h / sh⌋ : ℤ) : ℚ) * sh := by nlinarith
        have h3 := (mul_lt_mul_right hsh).mp hq
        exact_mod_cast h3
      refine ⟨(⌊(py - jsMod h sh) / sh⌋).toNat + 1, ?_, ?_, ?_⟩
      · have hVint := vSections_of_mod_pos h sh hh hsh hr
        omega
      · have hsv := sectionY_succ_of_mod_pos h sh (⌊(py - jsMod h sh) / sh⌋).toNat hr
        calc rowBound h sh ((⌊(py - jsMod h sh) / sh⌋).toNat + 1)
            ≤ sectionY h sh ((⌊(py - jsMod h sh) / sh⌋).toNat + 1) := min_le_left _ _
        _ = jsMod h sh + (((⌊(py - jsMod h sh) / sh⌋).toNat : ℕ) : ℚ) * sh := hsv
        _ = jsMod h sh + ((⌊(py - jsMod h sh) / sh⌋ : ℤ) : ℚ) * sh := by rw [hcast]
        _ ≤ py := by linarith
      · have hsv2 := sectionY_succ_of_mod_pos h sh ((⌊(py - jsMod h sh) / sh⌋).toNat + 1) hr
        unfold rowBound
        rw [hsv2]
        refine lt_min ?_ h1
        have hc1 : (((⌊(py - jsMod h sh) / sh⌋).toNat + 1 : ℕ) : ℚ) =
            ((⌊(py - jsMod h sh) / sh⌋ : ℤ) : ℚ) + 1 := by
          push_cast
          rw [hcast]
        rw [hc1]
        linarith
  · have h0r : jsMod h sh = 0 :=
      le_antisymm (not_lt.mp hr) (jsMod_nonneg_of_pos h sh hsh)
    have hm0 : (0 : ℤ) ≤ ⌊py / sh⌋ := Int.floor_nonneg.mpr (div_nonneg h0 hsh.le)
    have hcast : (((⌊py / sh⌋).toNat : ℕ) : ℚ) = ((⌊py / sh⌋ : ℤ) : ℚ) := by
      exact_mod_cast Int.toNat_of_nonneg hm0
    have hlow : ((⌊py / sh⌋ : ℤ) : ℚ) * sh ≤ py :=
      (le_div_iff₀ hsh).mp (Int.floor_le _)
    have hhigh : py < (((⌊py / sh⌋ : ℤ) : ℚ) + 1) * sh := by
      have h2 : py / sh < ((⌊py / sh⌋ : ℤ) : ℚ) + 1 :=
        Int.lt_floor_add_one (py / sh)
      exact (div_lt_iff₀ hsh).mp h2
    have heq := eq_mul_floor_of_mod_eq_zero h sh h0r
    have hmF : ⌊py / sh⌋ < ⌊h / sh⌋ := by
      have hq : ((⌊py / sh⌋ : ℤ) : ℚ) * sh < ((⌊h / sh⌋ : ℤ) : ℚ) * sh := by nlinarith
      have h3 := (mul_lt_mul_right hsh).mp hq
      exact_mod_cast h3
    refine ⟨(⌊py / sh⌋).toNat, ?_, ?_, ?_⟩
    · have hVint := vSections_of_mod_eq_zero h sh hh hsh h0r
      omega
    · calc rowBound h sh (⌊py / sh⌋).toNat
          ≤ sectionY h sh (⌊py / sh⌋).toNat := min_le_left _ _
      _ = (((⌊py / sh⌋).toNat : ℕ) : ℚ) * sh := sectionY_of_mod_eq_zero h sh _ h0r
      _ = ((⌊py / sh⌋ : ℤ) : ℚ) * sh := by rw [hcast]
      _ ≤ py := hlow
    · unfold rowBound
      rw [sectionY_of_mod_eq_zero h sh ((⌊py / sh⌋).toNat + 1) h0r]
      refine lt_min ?_ h1
      have hc1 : (((⌊py / sh⌋).toNat + 1 : ℕ) : ℚ) = ((⌊py / sh⌋ : ℤ) : ℚ) + 1 := by
        push_cast
        rw [hcast]
      rw [hc1]
      exact hhigh

theorem sum_flatMap_q (l : List ℕ) (f : ℕ → List ℚ) :
    (l.flatMap f).sum = (l.map (fun a => (f a).sum)).sum := by
  rw [List.flatMap_def, List.sum_flatten, List.map_map]
  rfl

theorem sum_range_sub_q (f : ℕ → ℚ) (n : ℕ) :
    ((List.range n).map (fun i => f (i + 1) - f i)).sum = f n - f 0 := by
  induction n with
  | zero => simp
  | succ n ih =>
    rw [List.range_succ, List.map_append, List.sum_append, ih]
    simp only [List.map_cons, List.map_nil, List.sum_cons, List.sum_nil]
    ring

theorem sum_map_mul_right_q (l : List ℕ) (f : ℕ → ℚ) (c : ℚ) :
    (l.map (fun k => f k * c)).sum = (l.map f).sum * c := by
  induction l with
  | nil => simp
  | cons a t ih =>
    simp only [List.map_cons, List.sum_cons, ih]
    ring

/-- The grid of sections produced by the tiling loop of
calculateSpliceLayout. -/
def sectionGrid (name : String) (w h sw sh : ℚ) : List PlywoodSection :=
  (List.range (vSections h sh)).flatMap
    (fun v => (List.range (hSections w sw)).map
      (fun k => sectionAt name w h sw sh (hSections w sw) v k))

theorem sheets_eq (w h : ℚ) (name : String) (r : Bool) :
    (calculateSpliceLayout w h name r).sheets =
      sectionGrid name w h (sheetWidthOf r) (sheetHeightOf r) := rfl

theorem sheetWidthOf_pos (r : Bool) : 0 < sheetWidthOf r := by
  cases r <;> norm_num [sheetWidthOf, MAX_SHEET_WIDTH, MAX_SHEET_HEIGHT]

theorem sheetHeightOf_pos (r : Bool) : 0 < sheetHeightOf r := by
  cases r <;> norm_num [sheetHeightOf, MAX_SHEET_WIDTH, MAX_SHEET_HEIGHT]

theorem sectionAt_x (name : String) (w h sw sh : ℚ) (H v k : ℕ) :
    (sectionAt name w h sw sh H v k).x = (k : ℚ) * sw := rfl

theorem sectionAt_y (name : String) (w h sw sh : ℚ) (H v k : ℕ) :
    (sectionAt name w h sw sh H v k).y = sectionY h sh v := rfl

theorem sectionAt_width (name : String) (w h sw sh : ℚ) (H v k : ℕ) :
    (sectionAt name w h sw sh H v k).width = min sw (w - (k : ℚ) * sw) := rfl

theorem sectionAt_height (name : String) (w h sw sh : ℚ) (H v k : ℕ) :
    (sectionAt name w h sw sh H v k).height = sectionHeight h sh v := rfl

theorem x_add_width (w sw : ℚ) (k : ℕ) :
    (k : ℚ) * sw + min sw (w - (k : ℚ) * sw) = colBound w sw (k + 1) := by
  rw [← min_add_add_left]
  unfold colBound
  congr 1
  · push_cast
    ring
  · ring

theorem y_add_height (h sh : ℚ) (v : ℕ) (hh : 0 < h) (hsh : 0 < sh)
    (hv : v < vSections h sh) :
    sectionY h sh v + sectionHeight h sh v = rowBound h sh (v + 1) := by
  rw [rowBound_height h sh v hh hsh hv, rowBound_eq_of_lt h sh v hh hsh hv]
  ring

theorem sectionGrid_area (name : String) (w h sw sh : ℚ)
    (hw : 0 < w) (hh : 0 < h) (hsw : 0 < sw) (hsh : 0 < sh) :
    ((sectionGrid name w h sw sh).map (fun s => s.width * s.height)).sum = w * h := by
  unfold sectionGrid
  rw [List.map_flatMap, sum_flatMap_q]
  have hrow : ∀ v ∈ List.range (vSections h sh),
      (((List.range (hSections w sw)).map
        (fun k => sectionAt name w h sw sh (hSections w sw) v k)).map
        (fun s => s.width * s.height)).sum
      = w * (rowBound h sh (v + 1) - rowBound h sh v) := by
    intro v hv
    have hv2 : v < vSections h sh := List.mem_range.mp hv
    rw [List.map_map]
    have hcong : ∀ k ∈ List.range (hSections w sw),
        ((fun s => s.width * s.height) ∘
          (fun k => sectionAt name w h sw sh (hSections w sw) v k)) k
        = (fun k => (colBound w sw (k + 1) - colBound w sw k) *
            (rowBound h sh (v + 1) - rowBound h sh v)) k := by
      intro k hk
      have hk2 : k < hSections w sw := List.mem_range.mp hk
      show (sectionAt name w h sw sh (hSections w sw) v k).width *
           (sectionAt name w h sw sh (hSections w sw) v k).height = _
      rw [sectionAt_width, sectionAt_height,
          colBound_width w sw k hw hsw hk2, rowBound_height h sh v hh hsh hv2]
    rw [List.map_congr_left hcong, sum_map_mul_right_q,
        sum_range_sub_q (colBound w sw) (hSections w sw),
        colBound_top w sw hw hsw, colBound_zero w sw hw.le]
    ring
  rw [List.map_congr_left hrow]
  have hcong3 : ∀ v ∈ List.range (vSections h sh),
      w * (rowBound h sh (v + 1) - rowBound h sh v)
      = (fun v => (rowBound h sh (v + 1) - rowBound h sh v) * w) v := by
    intro v _
    ring
  rw [List.map_congr_left hcong3, sum_map_mul_right_q,
      sum_range_sub_q (rowBound h sh) (vSections h sh),
      rowBound_top h sh hh hsh, rowBound_zero h sh hh.le hsh]
  ring

theorem sectionGrid_pos (name : String) (w h sw sh : ℚ)
    (hw : 0 < w) (hh : 0 < h) (hsw : 0 < sw) (hsh : 0 < sh) :
    ∀ s ∈ sectionGrid name w h sw sh, 0 < s.width ∧ 0 < s.height := by
  intro s hs
  unfold sectionGrid at hs
  rw [List.mem_flatMap] at hs
  obtain ⟨v, hv, hs⟩ := hs
  rw [List.mem_map] at hs
  obtain ⟨k, hk, rfl⟩ := hs
  have hv2 : v < vSections h sh := List.mem_range.mp hv
  have hk2 : k < hSections w sw := List.mem_range.mp hk
  constructor
  · rw [sectionAt_width, colBound_width w sw k hw hsw hk2]
    have h3 := colBound_lt_succ w sw k hw hsw hk2
    linarith
  · rw [sectionAt_height, rowBound_height h sh v hh hsh hv2]
    have h3 := rowBound_lt_succ h sh v hh hsh hv2
    linarith

theorem sectionGrid_disjoint (name : String) (w h sw sh : ℚ)
    (hw : 0 < w) (hh : 0 < h) (hsw : 0 < sw) (hsh : 0 < sh) :
    (sectionGrid name w h sw sh).Pairwise (fun s t =>
      s.x + s.width ≤ t.x ∨ t.x + t.width ≤ s.x ∨
      s.y + s.height ≤ t.y ∨ t.y + t.height ≤ s.y) := by
  unfold sectionGrid
  rw [List.flatMap_def, List.pairwise_flatten]
  constructor
  · intro l hl
    rw [List.mem_map] at hl
    obtain ⟨v, hv, rfl⟩ := hl
    rw [List.pairwise_iff_getElem]
    intro i j hi hj hij
    simp only [List.getElem_map, List.getElem_range]
    have hiH : i < hSections w sw := by simpa using hi
    have hjH : j < hSections w sw := by simpa using hj
    left
    rw [sectionAt_x, sectionAt_width, sectionAt_x, x_add_width]
    calc colBound w sw (i + 1) ≤ colBound w sw j := colBound_mono w sw hsw.le (by omega)
    _ ≤ (j : ℚ) * sw := min_le_left _ _
  · rw [List.pairwise_map, List.pairwise_iff_getElem]
    intro i j hi hj hij
    simp only [List.getElem_range]
    have hiV : i < vSections h sh := by simpa using hi
    have hjV : j < vSections h sh := by simpa using hj
    intro x hx y hy
    rw [List.mem_map] at hx hy
    obtain ⟨k1, hk1, rfl⟩ := hx
    obtain ⟨k2, hk2, rfl⟩ := hy
    right; right; left
    rw [sectionAt_y, sectionAt_height, sectionAt_y,
        y_add_height h sh i hh hsh hiV]
    calc rowBound h sh (i + 1) ≤ rowBound h sh j := rowBound_mono h sh hsh (by omega)
    _ = sectionY h sh j := rowBound_eq_of_lt h sh j hh hsh hjV

theorem sectionGrid_cover (name : String) (w h sw sh : ℚ)
    (hw : 0 < w) (hh : 0 < h) (hsw : 0 < sw) (hsh : 0 < sh) :
    ∀ px py : ℚ, 0 ≤ px → px < w → 0 ≤ py → py < h →
      ∃ s ∈ sectionGrid name w h sw sh,
        s.x ≤ px ∧ px < s.x + s.width ∧ s.y ≤ py ∧ py < s.y + s.height := by
  intro px py hpx0 hpx1 hpy0 hpy1
  obtain ⟨k, hkH, hk1, hk2⟩ := colBound_cover w sw px hw hsw hpx0 hpx1
  obtain ⟨v, hvV, hv1, hv2⟩ := rowBound_cover h sh py hh hsh hpy0 hpy1
  refine ⟨sectionAt name w h sw sh (hSections w sw) v k, ?_, ?_, ?_, ?_, ?_⟩
  · unfold sectionGrid
    rw [List.mem_flatMap]
    exact ⟨v, List.mem_range.mpr hvV, List.mem_map.mpr ⟨k, List.mem_range.mpr hkH, rfl⟩⟩
  · rw [sectionAt_x]
    calc (k : ℚ) * sw = colBound w sw k := (colBound_eq_of_lt w sw k hw hsw hkH).symm
    _ ≤ px := hk1
  · rw [sectionAt_x, sectionAt_width, x_add_width]
    exact hk2
  · rw [sectionAt_y, ← rowBound_eq_of_lt h sh v hh hsh hvV]
    exact hv1
  · rw [sectionAt_y, sectionAt_height, y_add_height h sh v hh hsh hvV]
    exact hv2

end PlywoodSplicer

open PlywoodSplicer in
/-- Claim C1: for every panel width w > 0 and height h > 0, rotated or not,
the section list of calculateSpliceLayout exactly tiles the w-by-h rectangle:
the section areas sum to w * h, every section has positive width and height,
distinct sections are disjoint as half-open rectangles, and every point of
the panel lies in some section. -/
theorem claim_C1 (w h : ℚ) (name : String) (r : Bool) (hw : 0 < w) (hh : 0 < h) :
    (((calculateSpliceLayout w h name r).sheets.map (fun s => s.width * s.height)).sum
      = w * h)
    ∧ (∀ s ∈ (calculateSpliceLayout w h name r).sheets, 0 < s.width ∧ 0 < s.height)
    ∧ ((calculateSpliceLayout w h name r).sheets.Pairwise (fun s t =>
         s.x + s.width ≤ t.x ∨ t.x + t.width ≤ s.x ∨
         s.y + s.height ≤ t.y ∨ t.y + t.height ≤ s.y))
    ∧ (∀ px py : ℚ, 0 ≤ px → px < w → 0 ≤ py → py < h →
         ∃ s ∈ (calculateSpliceLayout w h name r).sheets,
           s.x ≤ px ∧ px < s.x + s.width ∧ s.y ≤ py ∧ py < s.y + s.height) := by
  have hsw := sheetWidthOf_pos r
  have hsh := sheetHeightOf_pos r
  refine ⟨?_, ?_, ?_, ?_⟩
  · rw [sheets_eq]
    exact sectionGrid_area name w h _ _ hw hh hsw hsh
  · rw [sheets_eq]
    exact sectionGrid_pos name w h _ _ hw hh hsw hsh
  · rw [sheets_eq]
    exact sectionGrid_disjoint name w h _ _ hw hh hsw hsh
  · intro px py h1 h2 h3 h4
    rw [sheets_eq]
    exact sectionGrid_cover name w h _ _ hw hh hsw hsh px py h1 h2 h3 h4

open PlywoodSplicer in
/-- Claim C1 witness: instantiation on a 50-by-100 panel, unrotated. -/
theorem claim_C1_witness :
    (0 : ℚ) < 50 ∧ (0 : ℚ) < 100 ∧
    ((((calculateSpliceLayout 50 100 "PANEL" false).sheets.map
        (fun s => s.width * s.height)).sum = 50 * 100)
    ∧ (∀ s ∈ (calculateSpliceLayout 50 100 "PANEL" false).sheets,
        0 < s.width ∧ 0 < s.height)
    ∧ ((calculateSpliceLayout 50 100 "PANEL" false).sheets.Pairwise (fun s t =>
         s.x + s.width ≤ t.x ∨ t.x + t.width ≤ s.x ∨
         s.y + s.height ≤ t.y ∨ t.y + t.height ≤ s.y))
    ∧ (∀ px py : ℚ, 0 ≤ px → px < 50 → 0 ≤ py → py < 100 →
         ∃ s ∈ (calculateSpliceLayout 50 100 "PANEL" false).sheets,
           s.x ≤ px ∧ px < s.x + s.width ∧ s.y ≤ py ∧ py < s.y + s.height)) :=
  ⟨by norm_num, by norm_num,
    claim_C1 50 100 "PANEL" false (by norm_num) (by norm_num)⟩
